import Mathlib

/-!
# Verification of the EHCI root-hub port state controller

A shallow embedding of `drivers/usb/host/ehci-hub.c`: the hub-class
control request processor (`ehci_hub_control`), the bus suspend
orchestrator (`ehci_bus_suspend`), the status-change aggregator
(`ehci_hub_status_data`) and the reset-complete classifier
(`check_reset_complete`), together with theorems checking the
natural-language specification against the code.

Hardware registers are modelled as 32-bit natural numbers; the per-port
software trackers (`resuming_ports`, `suspended_ports`, `port_c_suspend`,
`bus_suspended`, `owned_ports`) are bit-indexed naturals exactly as the
C `unsigned long` bitmaps.  Time (`jiffies`) is a natural number and the
millisecond conversions are the identity (abstract "time units", as in
the spec).  External primitives that are not part of this repository
(the register access layer's write semantics, the `handshake` busy-wait,
`ehci_halt`) are modelled from the spec, as noted on their definitions.
-/

/-! ## Register and protocol constants (EHCI PORTSC bits, USB hub protocol) -/

/-- Modelled from the spec: the PORTSC bit layout from the missing
`ehci_def.h` header (EHCI 1.0 table 2-16). -/
def PORT_CONNECT : Nat := 2 ^ 0

def PORT_CSC : Nat := 2 ^ 1

def PORT_PE : Nat := 2 ^ 2

def PORT_PEC : Nat := 2 ^ 3

def PORT_OC : Nat := 2 ^ 4

def PORT_OCC : Nat := 2 ^ 5

def PORT_RESUME : Nat := 2 ^ 6

def PORT_SUSPEND : Nat := 2 ^ 7

def PORT_RESET : Nat := 2 ^ 8

def PORT_LPM : Nat := 2 ^ 9

def PORT_LS_K : Nat := 2 ^ 10

def PORT_LS_J : Nat := 2 ^ 11

def PORT_POWER : Nat := 2 ^ 12

def PORT_OWNER : Nat := 2 ^ 13

def PORT_WKCONN_E : Nat := 2 ^ 20

def PORT_WKDISC_E : Nat := 2 ^ 21

def PORT_WKOC_E : Nat := 2 ^ 22

def PORT_DEV_ADDR : Nat := 127 * 2 ^ 25

/-- `PORT_CSC|PORT_PEC|PORT_OCC`: the write-one-to-clear change bits. -/
def PORT_RWC_BITS : Nat := PORT_CSC ||| PORT_PEC ||| PORT_OCC

/-- `PORT_WKOC_E|PORT_WKDISC_E|PORT_WKCONN_E` (ehci-hub.c line 32). -/
def PORT_WAKE_BITS : Nat := PORT_WKOC_E ||| PORT_WKDISC_E ||| PORT_WKCONN_E

def HOSTPC_PHCD : Nat := 2 ^ 22

def CMD_RUN : Nat := 2 ^ 0

def STS_PCD : Nat := 2 ^ 2

/-- `STS_IAA|STS_FATAL|STS_PCD|STS_ERR|STS_INT`. -/
def INTR_MASK : Nat := 2 ^ 5 ||| 2 ^ 4 ||| 2 ^ 2 ||| 2 ^ 1 ||| 2 ^ 0

/-- USB hub-class feature selectors (ch. 11.24.2 of the USB 2.0 spec). -/
def USB_PORT_FEAT_ENABLE : Nat := 1

def USB_PORT_FEAT_SUSPEND : Nat := 2

def USB_PORT_FEAT_RESET : Nat := 4

def USB_PORT_FEAT_POWER : Nat := 8

def USB_PORT_FEAT_C_CONNECTION : Nat := 16

def USB_PORT_FEAT_C_ENABLE : Nat := 17

def USB_PORT_FEAT_C_SUSPEND : Nat := 18

def USB_PORT_FEAT_C_OVER_CURRENT : Nat := 19

def USB_PORT_FEAT_C_RESET : Nat := 20

def USB_PORT_FEAT_TEST : Nat := 21

def C_HUB_LOCAL_POWER : Nat := 0

def C_HUB_OVER_CURRENT : Nat := 1

/-- wPortStatus bits of the returned status word. -/
def USB_PORT_STAT_CONNECTION : Nat := 1

def USB_PORT_STAT_ENABLE : Nat := 2

def USB_PORT_STAT_SUSPEND : Nat := 4

def USB_PORT_STAT_OVERCURRENT : Nat := 8

def USB_PORT_STAT_RESET : Nat := 16

def USB_PORT_STAT_POWER : Nat := 256

def USB_PORT_STAT_LOW_SPEED : Nat := 512

def USB_PORT_STAT_HIGH_SPEED : Nat := 1024

/-- wPortChange bits (shifted into the upper half of the status word). -/
def USB_PORT_STAT_C_CONNECTION : Nat := 1

def USB_PORT_STAT_C_ENABLE : Nat := 2

def USB_PORT_STAT_C_SUSPEND : Nat := 4

def USB_PORT_STAT_C_OVERCURRENT : Nat := 8

def USB_PORT_STAT_C_RESET : Nat := 16

/-- Hub-class request codes (`ClearHubFeature` etc. from `linux/usb/hcd.h`). -/
def ClearHubFeature : Nat := 0x2001

def ClearPortFeature : Nat := 0x2301

def GetHubDescriptor : Nat := 0xa006

def GetHubStatus : Nat := 0xa000

def GetPortStatus : Nat := 0xa300

def SetHubFeature : Nat := 0x2003

def SetPortFeature : Nat := 0x2303

def EHSET_TEST_SINGLE_STEP_SET_FEATURE : Nat := 6

/-- Error numbers, as (positive) errno values; the code returns their
negations. -/
def EPIPE : Int := 32

def EBUSY : Int := 16

def ENODEV : Int := 19

def ETIMEDOUT : Int := 110

def mask32 : Nat := 2 ^ 32 - 1

/-! ## Bit-level helpers -/

/-- Truthiness of the C expression `x & m`. -/
def tst (x m : Nat) : Bool := decide (x &&& m ≠ 0)

/-- The C expression `x & ~m` for a 32-bit mask `m` on a 32-bit value. -/
def clearM (x m : Nat) : Nat := x &&& (mask32 ^^^ (m &&& mask32))

/-- `set_bit(i, &bmp)`. -/
def setBit (b i : Nat) : Nat := b ||| 2 ^ i

/-- `clear_bit(i, &bmp)`. -/
def clrBit (b i : Nat) : Nat := if b.testBit i then b ^^^ 2 ^ i else b

theorem testBit_setBit (b i j : Nat) :
    (setBit b i).testBit j = (b.testBit j || decide (i = j)) := by
  simp [setBit, Nat.testBit_two_pow]

theorem testBit_clrBit (b i j : Nat) :
    (clrBit b i).testBit j = (b.testBit j && !(decide (i = j))) := by
  unfold clrBit
  by_cases h : b.testBit i
  · simp only [h, if_true, Nat.testBit_xor, Nat.testBit_two_pow]
    by_cases hij : i = j
    · subst hij; simp [h]
    · simp [hij]
  · simp only [h, if_false]
    by_cases hij : i = j
    · subst hij; simp [h]
    · simp [hij]

theorem tst_two_pow (x i : Nat) : tst x (2 ^ i) = x.testBit i := by
  unfold tst
  by_cases h : x.testBit i
  · have : (x &&& 2 ^ i).testBit i = true := by
      simp [Nat.testBit_and, h, Nat.testBit_two_pow]
    simp only [h, decide_eq_true_eq]
    intro h0
    rw [h0] at this
    simp [Nat.zero_testBit] at this
  · have hz : x &&& 2 ^ i = 0 := by
      apply Nat.eq_of_testBit_eq
      intro j
      simp only [Nat.testBit_and, Nat.zero_testBit, Nat.testBit_two_pow]
      by_cases hij : i = j
      · subst hij; simp [h]
      · simp [hij]
    simp [h, hz]

theorem tst_or (x a b : Nat) : tst x (a ||| b) = (tst x a || tst x b) := by
  unfold tst
  by_cases ha : x &&& a = 0
  · by_cases hb : x &&& b = 0
    · have : x &&& (a ||| b) = 0 := by
        apply Nat.eq_of_testBit_eq
        intro j
        have h1 := congrArg (fun t => t.testBit j) ha
        have h2 := congrArg (fun t => t.testBit j) hb
        simp only [Nat.testBit_and, Nat.zero_testBit] at h1 h2 ⊢
        simp only [Nat.testBit_or]
        rcases Bool.eq_false_or_eq_true (x.testBit j) with h | h <;>
          simp_all
      simp [ha, hb, this]
    · have hb2 : ∃ j, x.testBit j ∧ b.testBit j := by
        obtain ⟨j, hj, -⟩ := Nat.exists_most_significant_bit hb
        refine ⟨j, ?_, ?_⟩
        · have := congrArg (fun t => t) hj
          simp only [Nat.testBit_and, Bool.and_eq_true] at hj
          exact hj.1
        · simp only [Nat.testBit_and, Bool.and_eq_true] at hj
          exact hj.2
      obtain ⟨j, hx, hbj⟩ := hb2
      have : x &&& (a ||| b) ≠ 0 := by
        intro h0
        have := congrArg (fun t => t.testBit j) h0
        simp [Nat.testBit_and, Nat.testBit_or, hx, hbj] at this
      simp [ha, hb, this]
  · have ha2 : ∃ j, x.testBit j ∧ a.testBit j := by
      obtain ⟨j, hj, -⟩ := Nat.exists_most_significant_bit ha
      simp only [Nat.testBit_and, Bool.and_eq_true] at hj
      exact ⟨j, hj.1, hj.2⟩
    obtain ⟨j, hx, haj⟩ := ha2
    have : x &&& (a ||| b) ≠ 0 := by
      intro h0
      have := congrArg (fun t => t.testBit j) h0
      simp [Nat.testBit_and, Nat.testBit_or, hx, haj] at this
    simp [ha, this]

theorem testBit_mask32 (i : Nat) : mask32.testBit i = decide (i < 32) := by
  have h : mask32 = 2 ^ 32 - 1 := rfl
  rw [h, Nat.testBit_two_pow_sub_one]

/-- Bits of `clearM x m`: kept below bit 32 outside `m`, cleared inside. -/
theorem testBit_clearM (x m i : Nat) :
    (clearM x m).testBit i =
      (x.testBit i && decide (i < 32) && !(m.testBit i && decide (i < 32))) := by
  simp only [clearM, Nat.testBit_and, Nat.testBit_xor, testBit_mask32]
  by_cases h : i < 32 <;> simp [h]

/-! ## Data model -/

/-- The root-hub run state (`ehci->rh_state`). -/
inductive RhState
  | running
  | suspended
  | halted
  deriving Repr, DecidableEq

/-- Configuration-time controller data: capability parameters
(`hcs_params` fields), erratum flags and build options.  None of these
change during the operations modelled here. -/
structure EhciCaps where
  /-- `HCS_N_PORTS(ehci->hcs_params)` -/
  nPorts : Nat
  /-- `HCS_PPC(ehci->hcs_params)`: per-port power switching -/
  ppc : Bool
  /-- `HCS_DEBUG_PORT(ehci->hcs_params)` (1-based) -/
  debugPort : Nat
  /-- `ehci_is_TDI(ehci)`: internal transaction translator -/
  isTDI : Bool
  has_hostpc : Bool
  has_lpm : Bool
  has_ppcd : Bool
  no_selective_suspend : Bool
  susp_sof_bug : Bool
  resume_sof_bug : Bool
  reset_sof_bug : Bool
  has_amcc_usb23 : Bool
  /-- `ehci->debug != NULL && (readl(&ehci->debug->control) & DBGP_ENABLED)` -/
  debugActive : Bool
  /-- `hcd->driver->enable_ulpi_control != NULL` -/
  ulpi : Bool
  /-- `CONFIG_USB_EHCI_EHSET` is compiled in -/
  ehset : Bool
  /-- `CONFIG_USB_OTG` is compiled in -/
  otg : Bool
  /-- `hcd->self.otg_port` -/
  otgPort : Nat
  /-- `hcd->self.b_hnp_enable` -/
  b_hnp_enable : Bool
  /-- `ehci->companion_ports`: ports statically assigned to the companion -/
  companion_ports : Nat
  /-- `hcd->self.root_hub->do_remote_wakeup` -/
  do_remote_wakeup : Bool
  /-- the `ignore_oc` module parameter -/
  ignore_oc : Bool
  deriving Repr, DecidableEq

/-- The mutable controller state: hardware registers plus the software
port state tracker. -/
structure EhciState where
  /-- `ehci->regs->port_status[]`, one PORTSC register per port -/
  portReg : List Nat
  /-- the per-port HOSTPC registers -/
  hostpc : List Nat
  /-- the global STS register -/
  statusReg : Nat
  /-- the global USBCMD register -/
  commandReg : Nat
  /-- the global interrupt-enable register -/
  intrEnable : Nat
  /-- `ehci->command`, the software copy of USBCMD -/
  command : Nat
  /-- `ehci->resuming_ports` bitmap -/
  resuming_ports : Nat
  /-- `ehci->suspended_ports` bitmap -/
  suspended_ports : Nat
  /-- `ehci->port_c_suspend` bitmap -/
  port_c_suspend : Nat
  /-- `ehci->bus_suspended` bitmap -/
  bus_suspended : Nat
  /-- `ehci->owned_ports` bitmap -/
  owned_ports : Nat
  /-- `ehci->reset_done[]`, the per-port completion deadline (0 = none) -/
  reset_done : List Nat
  rh_state : RhState
  /-- `ehci->next_statechange` -/
  next_statechange : Nat
  /-- the root-hub polling timer (`hcd->rh_timer`): pending expiry, if armed -/
  rhTimer : Option Nat
  deriving Repr, DecidableEq

/-- External inputs of one call: the clock and the outcomes of the
external busy-wait handshakes (spec section 6, `wait_until`). -/
structure Env where
  jiffies : Nat
  /-- outcome of the 2 ms resume-completion handshake -/
  hsResumeOk : Bool
  /-- outcome of the 1000-unit reset-completion handshake -/
  hsResetOk : Bool
  /-- return value of the opaque EHSET single-step diagnostic -/
  ehsetRet : Int
  deriving Repr, DecidableEq

/-- `ehci_readl` of a PORTSC register: a 32-bit read. -/
def readPort (s : EhciState) (p : Nat) : Nat := s.portReg.getD p 0 &&& mask32

def readHostpc (s : EhciState) (p : Nat) : Nat := s.hostpc.getD p 0

/-- Modelled from the spec: the Register Access Layer's PORTSC write
(external, spec sections 2 and 6).  The change bits
(`PORT_CSC|PORT_PEC|PORT_OCC`) are write-one-to-clear: a written 1
clears the latched bit and a written 0 leaves it alone; every other bit
stores the written value. -/
def wrReg (old v : Nat) : Nat :=
  (clearM v PORT_RWC_BITS) ||| ((old &&& PORT_RWC_BITS) &&& (mask32 ^^^ (v &&& PORT_RWC_BITS)))

/-- `ehci_writel` to a PORTSC register. -/
def writePort (s : EhciState) (p v : Nat) : EhciState :=
  { s with portReg := s.portReg.set p (wrReg (readPort s p) v) }

/-- Modelled from the spec: `handshake` (the external
wait-until-register-bits-match primitive); its result is supplied by the
environment oracle and a timeout surfaces as `-ETIMEDOUT`. -/
def handshake (ok : Bool) : Int := if ok then 0 else -ETIMEDOUT

/-- Modelled from the spec: `ehci_halt` stops the controller by clearing
the run/stop bit of the global command register ("physically halt the
controller", spec section 4.7); the halt handshake itself is external. -/
def ehci_halt (s : EhciState) : EhciState :=
  { s with commandReg := clearM s.commandReg CMD_RUN }

/-- Modelled from the spec: `ehci_port_speed` from the missing `ehci.h`
header.  A TDI-style controller decodes the two PORTSC speed bits; a
plain EHCI root hub reports every connected port as high speed. -/
def ehci_port_speed (c : EhciCaps) (portsc : Nat) : Nat :=
  if c.isTDI then
    if (portsc >>> 26) &&& 3 = 0 then 0
    else if (portsc >>> 26) &&& 3 = 1 then USB_PORT_STAT_LOW_SPEED
    else USB_PORT_STAT_HIGH_SPEED
  else USB_PORT_STAT_HIGH_SPEED

/-! ## check_reset_complete (ehci-hub.c lines 526-565) -/

/-- `check_reset_complete`: after the reset handshake, classify the port.
Disconnected or enabled (high-speed) ports are kept; a connected but
unenabled port is handed to the companion by setting `PORT_OWNER` —
except on a TDI controller, where there is nobody to hand it to.
Returns the (possibly rewritten) `port_status` value. -/
def check_reset_complete (c : EhciCaps) (s : EhciState) (p : Nat)
    (port_status : Nat) : Nat × EhciState :=
  if !(tst port_status PORT_CONNECT) then (port_status, s)
  else if !(tst port_status PORT_PE) then
    if c.isTDI then (port_status, s)
    else
      let ps := clearM (port_status ||| PORT_OWNER) PORT_RWC_BITS
      (ps, writePort s p ps)
  else (port_status, s)

/-! ## GetPortStatus (ehci-hub.c lines 966-1120), split into its stages -/

/-- Stage 1 of the status resolution: derive the connect/enable change
bits and handle over-current-change; on an active over-current with
per-port power switching, force port power off and re-read the register
(lines 973-995).  Returns (status, temp, state). -/
def gps_chg (c : EhciCaps) (s : EhciState) (p : Nat) : Nat × Nat × EhciState :=
  let temp := readPort s p
  let status :=
    (if tst temp PORT_CSC then USB_PORT_STAT_C_CONNECTION <<< 16 else 0) |||
    (if tst temp PORT_PEC then USB_PORT_STAT_C_ENABLE <<< 16 else 0)
  if tst temp PORT_OCC && !c.ignore_oc then
    let status := status ||| (USB_PORT_STAT_C_OVERCURRENT <<< 16)
    if tst temp PORT_OC && c.ppc then
      let s := writePort s p (clearM temp (PORT_RWC_BITS ||| PORT_POWER))
      (status, readPort s p, s)
    else (status, temp, s)
  else (status, temp, s)

/-- Stage 2: resume handling (lines 997-1033).  A set resume bit either
starts the 20-unit deadline (remote wakeup) and re-arms the root-hub
timer, or — once the deadline has elapsed — completes the resume:
tracker flags updated, resume signaling stopped in hardware, and the
2 ms handshake run.  A failed handshake takes `goto error`, which the
caller maps to the uniform stall; the state mutations persist.
Returns (retval, temp, state). -/
def gps_resume (env : Env) (s : EhciState) (p temp : Nat) :
    Int × Nat × EhciState :=
  if tst temp PORT_RESUME then
    if s.reset_done.getD p 0 = 0 then
      let d := env.jiffies + 20
      (0, temp, { s with reset_done := s.reset_done.set p d, rhTimer := some d })
    else if s.reset_done.getD p 0 ≤ env.jiffies then
      let s := { s with
        suspended_ports := clrBit s.suspended_ports p,
        port_c_suspend := setBit s.port_c_suspend p,
        reset_done := s.reset_done.set p 0 }
      let temp := readPort s p
      let s := writePort s p (clearM temp (PORT_RWC_BITS ||| PORT_RESUME))
      let s := { s with resuming_ports := clrBit s.resuming_ports p }
      if handshake env.hsResumeOk ≠ 0 then (handshake env.hsResumeOk, temp, s)
      else (0, clearM temp (PORT_SUSPEND ||| PORT_RESUME ||| (3 <<< 10)), s)
    else (0, temp, s)
  else (0, temp, s)

/-- Stage 3: reset handling (lines 1035-1060).  An elapsed reset
deadline sets the reset-change status bit, force-clears the reset bit in
hardware, runs the 1000-unit handshake (failure takes `goto error`) and
classifies the result via `check_reset_complete`.
Returns (retval, status, temp, state). -/
def gps_reset (c : EhciCaps) (env : Env) (s : EhciState)
    (p status temp : Nat) : Int × Nat × Nat × EhciState :=
  if tst temp PORT_RESET && decide (s.reset_done.getD p 0 ≤ env.jiffies) then
    let status := status ||| (USB_PORT_STAT_C_RESET <<< 16)
    let s := { s with
      reset_done := s.reset_done.set p 0,
      resuming_ports := clrBit s.resuming_ports p }
    let s := writePort s p (clearM temp (PORT_RWC_BITS ||| PORT_RESET))
    if handshake env.hsResetOk ≠ 0 then (handshake env.hsResetOk, status, temp, s)
    else
      let r := check_reset_complete c s p (readPort s p)
      (0, status, r.1, r.2)
  else (0, status, temp, s)

/-- Stage 4: stale-deadline cleanup and the dedicated-port handover
(lines 1062-1075).  Returns (temp, state). -/
def gps_companion (c : EhciCaps) (s : EhciState) (p temp : Nat) :
    Nat × EhciState :=
  let s :=
    if !(tst temp (PORT_RESUME ||| PORT_RESET)) then
      { s with
        reset_done := s.reset_done.set p 0,
        resuming_ports := clrBit s.resuming_ports p }
    else s
  if tst temp PORT_CONNECT && c.companion_ports.testBit p then
    let t := clearM temp PORT_RWC_BITS ||| PORT_OWNER
    let s := writePort s p t
    (readPort s p, s)
  else (temp, s)

/-- Stage 5: compose the final status word (lines 1083-1113), including
the "maybe the port was unsuspended without our knowledge" recovery.
The sequence of `status |=` accumulations is written as one disjunction
of independent contributions.  Returns (status, state). -/
def gps_compose (c : EhciCaps) (s : EhciState) (p status temp : Nat) :
    Nat × EhciState :=
  let s2 :=
    if tst temp (PORT_SUSPEND ||| PORT_RESUME) then s
    else if s.suspended_ports.testBit p then
      let s3 := { s with
        suspended_ports := clrBit s.suspended_ports p,
        resuming_ports := clrBit s.resuming_ports p,
        reset_done := s.reset_done.set p 0 }
      if tst temp PORT_PE then
        { s3 with port_c_suspend := setBit s3.port_c_suspend p }
      else s3
    else s
  (status |||
    (if tst temp PORT_CONNECT then
        USB_PORT_STAT_CONNECTION |||
          (if c.has_hostpc then ehci_port_speed c (readHostpc s p)
           else ehci_port_speed c temp)
      else 0) |||
    (if tst temp PORT_PE then USB_PORT_STAT_ENABLE else 0) |||
    (if tst temp (PORT_SUSPEND ||| PORT_RESUME) then USB_PORT_STAT_SUSPEND else 0) |||
    (if tst temp PORT_OC then USB_PORT_STAT_OVERCURRENT else 0) |||
    (if tst temp PORT_RESET then USB_PORT_STAT_RESET else 0) |||
    (if tst temp PORT_POWER then USB_PORT_STAT_POWER else 0) |||
    (if s2.port_c_suspend.testBit p then USB_PORT_STAT_C_SUSPEND <<< 16 else 0),
   s2)

/-- `GetPortStatus` (the Status Resolution Algorithm): returns
(retval, status word if successful, state).  `goto error` yields the
uniform `-EPIPE` while keeping any state mutations already made. -/
def getPortStatus (c : EhciCaps) (env : Env) (s : EhciState)
    (wIndex : Nat) : Int × Option Nat × EhciState :=
  if wIndex = 0 ∨ c.nPorts < wIndex then (-EPIPE, none, s)
  else
    let p := wIndex - 1
    let r1 := gps_chg c s p
    let r2 := gps_resume env r1.2.2 p r1.2.1
    if r2.1 ≠ 0 then (-EPIPE, none, r2.2.2)
    else
      let r3 := gps_reset c env r2.2.2 p r1.1 r2.2.1
      if r3.1 ≠ 0 then (-EPIPE, none, r3.2.2.2)
      else
        let r4 := gps_companion c r3.2.2.2 p r3.2.2.1
        let r5 := gps_compose c r4.2 p r3.2.1 r4.1
        (0, some r5.1, r5.2)

/-! ## ClearPortFeature (ehci-hub.c lines 874-956) -/

/-- `ClearPortFeature`: port-change acknowledgement and single-port
resume initiation.  Note the code reaches the feature switch even for a
companion-owned port, so the change-bit clears stay effective (comment
at lines 880-885).  Returns (retval, state). -/
def clearPortFeature (c : EhciCaps) (env : Env) (s : EhciState)
    (wValue wIndex : Nat) : Int × EhciState :=
  if wIndex = 0 ∨ c.nPorts < wIndex then (-EPIPE, s)
  else
    let p := wIndex - 1
    let temp := readPort s p
    if wValue = USB_PORT_FEAT_ENABLE then
      (0, writePort s p (clearM temp PORT_PE))
    else if wValue = USB_PORT_FEAT_C_ENABLE then
      (0, writePort s p (clearM temp PORT_RWC_BITS ||| PORT_PEC))
    else if wValue = USB_PORT_FEAT_SUSPEND then
      if tst temp PORT_RESET then (-EPIPE, s)
      else if c.no_selective_suspend then (0, s)
      else if c.otg && decide (c.otgPort = wIndex) && c.b_hnp_enable then
        (0, s)
      else if !(tst temp PORT_SUSPEND) then (0, s)
      else if !(tst temp PORT_PE) then (-EPIPE, s)
      else
        let s := if c.has_hostpc then
            { s with hostpc := s.hostpc.set p (clearM (readHostpc s p) HOSTPC_PHCD) }
          else s
        let t := clearM temp (PORT_RWC_BITS ||| PORT_WAKE_BITS)
        let s := writePort s p (t ||| PORT_RESUME)
        (0, { s with reset_done := s.reset_done.set p (env.jiffies + 20) })
    else if wValue = USB_PORT_FEAT_C_SUSPEND then
      (0, { s with port_c_suspend := clrBit s.port_c_suspend p })
    else if wValue = USB_PORT_FEAT_POWER then
      if c.ppc then (0, writePort s p (clearM temp (PORT_RWC_BITS ||| PORT_POWER)))
      else (0, s)
    else if wValue = USB_PORT_FEAT_C_CONNECTION then
      let t := if c.has_lpm then clearM temp (PORT_LPM ||| PORT_DEV_ADDR) else temp
      (0, writePort s p (clearM t PORT_RWC_BITS ||| PORT_CSC))
    else if wValue = USB_PORT_FEAT_C_OVER_CURRENT then
      (0, writePort s p (clearM temp PORT_RWC_BITS ||| PORT_OCC))
    else if wValue = USB_PORT_FEAT_C_RESET then (0, s)
    else (-EPIPE, s)

/-! ## SetPortFeature (ehci-hub.c lines 1131-1309) -/

/-- The `USB_PORT_FEAT_TEST` loop: put every enabled port into suspend
(lines 1276-1286), counting down from the highest port. -/
def testSuspendLoop (s : EhciState) : Nat → EhciState
  | 0 => s
  | n + 1 =>
    let t := clearM (readPort s n) PORT_RWC_BITS
    let s := if tst t PORT_PE then writePort s n (t ||| PORT_SUSPEND) else s
    testSuspendLoop s n

/-- `SetPortFeature`.  The debug-port denial (lines 1134-1142) precedes
the range check; a companion-owned port is silently accepted with no
effect (line 1147).  Returns (retval, state). -/
def setPortFeature (c : EhciCaps) (env : Env) (s : EhciState)
    (wValue wIndexFull : Nat) : Int × EhciState :=
  let selector := wIndexFull >>> 8
  let wIndex := wIndexFull &&& 0xff
  if c.debugActive && decide (wIndex = c.debugPort) then (-ENODEV, s)
  else if wIndex = 0 ∨ c.nPorts < wIndex then (-EPIPE, s)
  else
    let p := wIndex - 1
    let temp0 := readPort s p
    if tst temp0 PORT_OWNER then (0, s)
    else
      let temp := clearM temp0 PORT_RWC_BITS
      if wValue = USB_PORT_FEAT_SUSPEND then
        if c.no_selective_suspend then (0, s)
        else if !(tst temp PORT_PE) || tst temp PORT_RESET then (-EPIPE, s)
        else
          let s := if !c.susp_sof_bug then writePort s p (temp ||| PORT_SUSPEND) else s
          if c.otg && decide (c.otgPort = wIndex) && c.b_hnp_enable then
            (0, { s with suspended_ports := setBit s.suspended_ports p })
          else
            let temp := clearM temp PORT_WKCONN_E ||| PORT_WKDISC_E ||| PORT_WKOC_E
            let s := if c.susp_sof_bug then writePort s p temp
              else writePort s p (temp ||| PORT_SUSPEND)
            let s := if c.has_hostpc then
                { s with hostpc := s.hostpc.set p (readHostpc s p ||| HOSTPC_PHCD) }
              else s
            (0, { s with suspended_ports := setBit s.suspended_ports p })
      else if wValue = USB_PORT_FEAT_POWER then
        if c.ppc then (0, writePort s p (temp ||| PORT_POWER)) else (0, s)
      else if wValue = USB_PORT_FEAT_RESET then
        if tst temp PORT_RESUME then (-EPIPE, s)
        else
          -- (temp & (PORT_PE|PORT_CONNECT)) == PORT_CONNECT, !TDI, PORT_USB11(temp)
          let handoff := tst temp PORT_CONNECT && !(tst temp PORT_PE) &&
            !c.isTDI && tst temp PORT_LS_K && !(tst temp PORT_LS_J)
          let (temp2, s2) :=
            if handoff then (temp ||| PORT_OWNER, s)
            else (clearM (temp ||| PORT_RESET) PORT_PE,
              { s with reset_done := s.reset_done.set p (env.jiffies + 50) })
          let s3 := if c.reset_sof_bug && tst temp2 PORT_RESET then
              { s2 with commandReg := clearM s2.commandReg CMD_RUN }
            else s2
          let s4 := writePort s3 p temp2
          let s5 := if c.reset_sof_bug && tst temp2 PORT_RESET && c.ulpi then
              let t := readPort s4 p
              let s4 := writePort s4 p (clearM t (PORT_RWC_BITS ||| PORT_RESET))
              { s4 with commandReg := s4.commandReg ||| CMD_RUN }
            else s4
          (0, s5)
      else if wValue = USB_PORT_FEAT_TEST then
        if decide (selector ≠ 0) && decide (selector ≤ 5) then
          let s := testSuspendLoop s c.nPorts
          let s := ehci_halt s
          let t := readPort s p
          (0, writePort s p (t ||| (selector <<< 16)))
        else if c.ehset && decide (selector = EHSET_TEST_SINGLE_STEP_SET_FEATURE) then
          (env.ehsetRet, s)
        else (-EPIPE, s)
      else (-EPIPE, s)

/-! ## Hub-wide requests and the dispatcher (ehci-hub.c lines 834-1319) -/

/-- `ClearHubFeature` and `SetHubFeature` share one body: the two legal
codes are accepted with no effect, anything else stalls. -/
def hubFeature (s : EhciState) (wValue : Nat) : Int × EhciState :=
  if wValue = C_HUB_LOCAL_POWER ∨ wValue = C_HUB_OVER_CURRENT then (0, s)
  else (-EPIPE, s)

/-- `ehci_hub_control`: dispatch on the request type.  The status word
component is `some` only for a successful `GetPortStatus` (for
`GetHubStatus` it is the constant zero word).  `GetHubDescriptor` fills
a descriptor from capability data only; its buffer is not modelled. -/
def ehci_hub_control (c : EhciCaps) (env : Env) (s : EhciState)
    (typeReq wValue wIndex : Nat) : Int × Option Nat × EhciState :=
  if typeReq = ClearHubFeature then
    let r := hubFeature s wValue
    (r.1, none, r.2)
  else if typeReq = ClearPortFeature then
    let r := clearPortFeature c env s wValue wIndex
    (r.1, none, r.2)
  else if typeReq = GetHubDescriptor then (0, none, s)
  else if typeReq = GetHubStatus then (0, some 0, s)
  else if typeReq = GetPortStatus then getPortStatus c env s wIndex
  else if typeReq = SetHubFeature then
    let r := hubFeature s wValue
    (r.1, none, r.2)
  else if typeReq = SetPortFeature then
    let r := setPortFeature c env s wValue wIndex
    (r.1, none, r.2)
  else (-EPIPE, none, s)

/-! ## Bus suspend orchestrator (ehci-hub.c lines 204-337) -/

/-- One iteration of the bus-suspend port loop (lines 248-285): a
companion-owned port is recorded in `owned_ports`; an enabled,
not-yet-suspended port gets the suspend bit (after a halt on the
`susp_sof_bug` erratum) and is recorded in `bus_suspended`; wake bits
are re-armed per connection state when remote wakeup is on; the
register is written only if the value changed. -/
def busSuspendPort (c : EhciCaps) (sc : EhciState × Bool) (p : Nat) :
    EhciState × Bool :=
  let s := sc.1
  let changed := sc.2
  let t1 := clearM (readPort s p) PORT_RWC_BITS
  let t2 := clearM t1 PORT_WAKE_BITS
  let st2 :=
    if tst t1 PORT_OWNER then
      ({ s with owned_ports := setBit s.owned_ports p }, t2)
    else if tst t1 PORT_PE && !(tst t1 PORT_SUSPEND) then
      let s := if c.susp_sof_bug then ehci_halt s else s
      ({ s with bus_suspended := setBit s.bus_suspended p }, t2 ||| PORT_SUSPEND)
    else (s, t2)
  let s := st2.1
  let t2 := st2.2
  let t2 :=
    if c.do_remote_wakeup then
      if tst t1 PORT_CONNECT then t2 ||| PORT_WKOC_E ||| PORT_WKDISC_E
      else t2 ||| PORT_WKOC_E ||| PORT_WKCONN_E
    else t2
  if t1 ≠ t2 then (writePort s p t2, true) else (s, changed)

/-- The bus-suspend port loop, counting down from the highest port as
the C `while (port--)` does. -/
def busSuspendLoop (c : EhciCaps) (sc : EhciState × Bool) :
    Nat → EhciState × Bool
  | 0 => sc
  | n + 1 => busSuspendLoop c (busSuspendPort c sc n) n

/-- The phy low-power loop (lines 292-305): set `HOSTPC_PHCD` on every
port's HOSTPC register. -/
def hostpcLoop (s : EhciState) : Nat → EhciState
  | 0 => s
  | n + 1 =>
    hostpcLoop
      { s with hostpc := s.hostpc.set n (readHostpc s n ||| HOSTPC_PHCD) } n

/-- `ehci_bus_suspend`: fail with `-EBUSY` (mutating nothing) when
remote wakeup is enabled and a port resume is in flight; otherwise save
the command register, rebuild `owned_ports`/`bus_suspended` while
suspending the active unsuspended ports, enter phy low-power mode if
applicable, halt the controller, and mask the change interrupt unless
remote wakeup is on.  Timer deletion, schedule quiescing (`ehci_quiesce`,
`ehci_work`, `end_unlink_async`) and the settle delays act outside the
modelled state. -/
def ehci_bus_suspend (c : EhciCaps) (env : Env) (s : EhciState) :
    Int × EhciState :=
  if c.do_remote_wakeup ∧ s.resuming_ports ≠ 0 then (-EBUSY, s)
  else
    let s := { s with command := s.commandReg }
    let s := { s with bus_suspended := 0, owned_ports := 0 }
    let sc := busSuspendLoop c (s, false) c.nPorts
    let s := sc.1
    let s := if sc.2 && c.has_hostpc then hostpcLoop s c.nPorts else s
    let s := if !c.susp_sof_bug then ehci_halt s else s
    let s := { s with rh_state := RhState.suspended }
    let mask := if c.do_remote_wakeup then INTR_MASK else clearM INTR_MASK STS_PCD
    let s := { s with intrEnable := mask }
    (0, { s with next_statechange := env.jiffies + 10 })

/-! ## Status-change aggregator (ehci-hub.c lines 572-650) -/

/-- Whether port `i` shows a pending change (line 633): a hardware
change bit under the over-current-sensitive mask, a tracked
suspend-change, or a recorded and elapsed reset/resume deadline. -/
def portChanged (c : EhciCaps) (env : Env) (s : EhciState) (i : Nat) : Bool :=
  let temp := readPort s i
  let mask :=
    if !c.ignore_oc then PORT_CSC ||| PORT_PEC ||| PORT_OCC
    else PORT_CSC ||| PORT_PEC
  tst temp mask || s.port_c_suspend.testBit i ||
    (decide (s.reset_done.getD i 0 ≠ 0) &&
      decide (s.reset_done.getD i 0 ≤ env.jiffies))

/-- One iteration of the change-scan loop (lines 620-642): skip ports
the per-port-change-detect word rules out, then record a changed port
in the one- or two-byte bitmap (bit `i+1` of the first byte for
`i < 7`, bit `i-7` of the second byte otherwise). -/
def hsdStep (c : EhciCaps) (env : Env) (s : EhciState) (ppcd : Nat)
    (acc : Nat × Nat × Bool) (i : Nat) : Nat × Nat × Bool :=
  if c.has_ppcd && !(ppcd.testBit i) then acc
  else if portChanged c env s i then
    if i < 7 then (setBit acc.1 (i + 1), acc.2.1, true)
    else (acc.1, setBit acc.2.1 (i - 7), true)
  else acc

/-- The change-scan loop over ports `0 .. n-1`, ascending. -/
def hsdLoop (c : EhciCaps) (env : Env) (s : EhciState) (ppcd : Nat) :
    Nat → Nat × Nat × Bool
  | 0 => (0, 0, false)
  | n + 1 => hsdStep c env s ppcd (hsdLoop c env s ppcd n) n

/-- `ehci_hub_status_data`: returns (retval, first byte, second byte,
state).  A non-running root hub reports nothing.  `status` starts from
`resuming_ports`, so an in-flight resume makes the call return nonzero
even with no change bits set (comment at lines 594-596); the root-hub
timer is re-armed so the resume can finish. -/
def ehci_hub_status_data (c : EhciCaps) (env : Env) (s : EhciState) :
    Nat × Nat × Nat × EhciState :=
  if s.rh_state ≠ RhState.running then (0, 0, 0, s)
  else
    let retval := if 7 < c.nPorts then 2 else 1
    let ppcd := if c.has_ppcd then s.statusReg >>> 16 else 0
    let bb := hsdLoop c env s ppcd c.nPorts
    let s2 := if s.resuming_ports ≠ 0 then
        { s with rhTimer := some (env.jiffies + 25) }
      else s
    if s.resuming_ports ≠ 0 ∨ bb.2.2 then (retval, bb.1, bb.2.1, s2)
    else (0, bb.1, bb.2.1, s2)

/-! ## Elementary facts about the embedding -/

theorem getD_set_self (l : List Nat) (i v : Nat) (h : i < l.length) :
    (l.set i v).getD i 0 = v := by
  simp [List.getD_eq_getElem?_getD, List.getElem?_set_self h]

theorem getD_set_ne (l : List Nat) (i j v : Nat) (h : i ≠ j) :
    (l.set i v).getD j 0 = l.getD j 0 := by
  simp [List.getD_eq_getElem?_getD, List.getElem?_set_ne h]

theorem testBit_RWC (i : Nat) :
    PORT_RWC_BITS.testBit i = (decide (i = 1) || decide (i = 3) || decide (i = 5)) := by
  simp only [PORT_RWC_BITS, PORT_CSC, PORT_PEC, PORT_OCC, Nat.testBit_or,
    Nat.testBit_two_pow]
  by_cases h1 : i = 1
  · subst h1; decide
  · by_cases h3 : i = 3
    · subst h3; decide
    · by_cases h5 : i = 5
      · subst h5; decide
      · simp [h1, h3, h5, Ne.symm h1, Ne.symm h3, Ne.symm h5]

/-- Bits of a written PORTSC value: the W1C change bits keep their old
value unless a 1 is written; all other (32-bit) positions take the
written value. -/
theorem testBit_wrReg (old v i : Nat) (h : i < 32) :
    (wrReg old v).testBit i =
      (if i = 1 ∨ i = 3 ∨ i = 5 then old.testBit i && !(v.testBit i)
       else v.testBit i) := by
  simp only [wrReg, clearM, Nat.testBit_or, Nat.testBit_and, Nat.testBit_xor,
    testBit_mask32, testBit_RWC, h, decide_True]
  by_cases h1 : i = 1
  · subst h1; cases hv : v.testBit 1 <;> cases ho : old.testBit 1 <;> simp [hv, ho]
  · by_cases h3 : i = 3
    · subst h3; cases hv : v.testBit 3 <;> cases ho : old.testBit 3 <;> simp [hv, ho]
    · by_cases h5 : i = 5
      · subst h5; cases hv : v.testBit 5 <;> cases ho : old.testBit 5 <;>
          simp [hv, ho]
      · simp [h1, h3, h5]

theorem wrReg_lt (old v : Nat) : wrReg old v < 2 ^ 32 := by
  have hm : mask32 < 2 ^ 32 := by decide
  have h1 : clearM v PORT_RWC_BITS < 2 ^ 32 :=
    Nat.and_lt_two_pow v (Nat.xor_lt_two_pow hm (Nat.and_lt_two_pow PORT_RWC_BITS hm))
  have h2 : (old &&& PORT_RWC_BITS) &&& (mask32 ^^^ (v &&& PORT_RWC_BITS)) < 2 ^ 32 :=
    Nat.and_lt_two_pow _
      (Nat.xor_lt_two_pow hm (Nat.and_lt_two_pow v (by decide : PORT_RWC_BITS < 2 ^ 32)))
  exact Nat.or_lt_two_pow h1 h2

theorem and_mask32_of_lt {x : Nat} (h : x < 2 ^ 32) : x &&& mask32 = x := by
  apply Nat.eq_of_testBit_eq
  intro i
  simp only [Nat.testBit_and, testBit_mask32]
  by_cases hi : i < 32
  · simp [hi]
  · have hx : x.testBit i = false := by
      refine Nat.testBit_lt_two_pow (lt_of_lt_of_le h ?_)
      exact Nat.pow_le_pow_right (by norm_num) (by omega)
    simp [hi, hx]

theorem readPort_writePort_self (s : EhciState) (p v : Nat)
    (h : p < s.portReg.length) :
    readPort (writePort s p v) p = wrReg (readPort s p) v := by
  simp only [readPort, writePort]
  rw [getD_set_self _ _ _ h, and_mask32_of_lt (wrReg_lt _ _)]

theorem readPort_writePort_ne (s : EhciState) (p v q : Nat) (h : p ≠ q) :
    readPort (writePort s p v) q = readPort s q := by
  simp only [readPort, writePort]
  rw [getD_set_ne _ _ _ _ h]

theorem readPort_lt (s : EhciState) (p : Nat) : readPort s p < 2 ^ 32 :=
  Nat.and_lt_two_pow _ (by decide : mask32 < 2 ^ 32)

/-! `tst` against the individual PORTSC bit constants. -/

@[simp] theorem tst_PORT_CONNECT (x : Nat) : tst x PORT_CONNECT = x.testBit 0 :=
  tst_two_pow x 0

@[simp] theorem tst_PORT_CSC (x : Nat) : tst x PORT_CSC = x.testBit 1 :=
  tst_two_pow x 1

@[simp] theorem tst_PORT_PE (x : Nat) : tst x PORT_PE = x.testBit 2 :=
  tst_two_pow x 2

@[simp] theorem tst_PORT_PEC (x : Nat) : tst x PORT_PEC = x.testBit 3 :=
  tst_two_pow x 3

@[simp] theorem tst_PORT_OC (x : Nat) : tst x PORT_OC = x.testBit 4 :=
  tst_two_pow x 4

@[simp] theorem tst_PORT_OCC (x : Nat) : tst x PORT_OCC = x.testBit 5 :=
  tst_two_pow x 5

@[simp] theorem tst_PORT_RESUME (x : Nat) : tst x PORT_RESUME = x.testBit 6 :=
  tst_two_pow x 6

@[simp] theorem tst_PORT_SUSPEND (x : Nat) : tst x PORT_SUSPEND = x.testBit 7 :=
  tst_two_pow x 7

@[simp] theorem tst_PORT_RESET (x : Nat) : tst x PORT_RESET = x.testBit 8 :=
  tst_two_pow x 8

@[simp] theorem tst_PORT_LS_K (x : Nat) : tst x PORT_LS_K = x.testBit 10 :=
  tst_two_pow x 10

@[simp] theorem tst_PORT_LS_J (x : Nat) : tst x PORT_LS_J = x.testBit 11 :=
  tst_two_pow x 11

@[simp] theorem tst_PORT_POWER (x : Nat) : tst x PORT_POWER = x.testBit 12 :=
  tst_two_pow x 12

@[simp] theorem tst_PORT_OWNER (x : Nat) : tst x PORT_OWNER = x.testBit 13 :=
  tst_two_pow x 13

@[simp] theorem tst_susp_resume (x : Nat) :
    tst x (PORT_SUSPEND ||| PORT_RESUME) = (x.testBit 7 || x.testBit 6) := by
  rw [tst_or, tst_PORT_SUSPEND, tst_PORT_RESUME]

@[simp] theorem tst_resume_reset (x : Nat) :
    tst x (PORT_RESUME ||| PORT_RESET) = (x.testBit 6 || x.testBit 8) := by
  rw [tst_or, tst_PORT_RESUME, tst_PORT_RESET]

@[simp] theorem tst_chg_mask_oc (x : Nat) :
    tst x (PORT_CSC ||| PORT_PEC ||| PORT_OCC) =
      (x.testBit 1 || x.testBit 3 || x.testBit 5) := by
  rw [tst_or, tst_or, tst_PORT_CSC, tst_PORT_PEC, tst_PORT_OCC]

@[simp] theorem tst_chg_mask_no_oc (x : Nat) :
    tst x (PORT_CSC ||| PORT_PEC) = (x.testBit 1 || x.testBit 3) := by
  rw [tst_or, tst_PORT_CSC, tst_PORT_PEC]

/-! ## Helper lemmas for bit tracking through the status pipeline -/

theorem testBit_RWC_POWER (i : Nat) :
    (PORT_RWC_BITS ||| PORT_POWER).testBit i =
      (decide (i = 1) || decide (i = 3) || decide (i = 5) || decide (i = 12)) := by
  simp only [Nat.testBit_or, testBit_RWC, PORT_POWER, Nat.testBit_two_pow]
  by_cases h : i = 12
  · subst h; decide
  · simp [h, Ne.symm h]

theorem testBit_RWC_RESUME (i : Nat) :
    (PORT_RWC_BITS ||| PORT_RESUME).testBit i =
      (decide (i = 1) || decide (i = 3) || decide (i = 5) || decide (i = 6)) := by
  simp only [Nat.testBit_or, testBit_RWC, PORT_RESUME, Nat.testBit_two_pow]
  by_cases h : i = 6
  · subst h; decide
  · simp [h, Ne.symm h]

theorem testBit_RWC_RESET (i : Nat) :
    (PORT_RWC_BITS ||| PORT_RESET).testBit i =
      (decide (i = 1) || decide (i = 3) || decide (i = 5) || decide (i = 8)) := by
  simp only [Nat.testBit_or, testBit_RWC, PORT_RESET, Nat.testBit_two_pow]
  by_cases h : i = 8
  · subst h; decide
  · simp [h, Ne.symm h]

theorem testBit_susp_resume_ls (i : Nat) :
    (PORT_SUSPEND ||| PORT_RESUME ||| (3 <<< 10)).testBit i =
      (decide (i = 7) || decide (i = 6) || decide (i = 10) || decide (i = 11)) := by
  have h3 : (3 <<< 10 : Nat) = 2 ^ 10 ||| 2 ^ 11 := by decide
  simp only [h3, Nat.testBit_or, PORT_SUSPEND, PORT_RESUME, Nat.testBit_two_pow]
  by_cases h7 : i = 7
  · subst h7; decide
  · by_cases h6 : i = 6
    · subst h6; decide
    · by_cases h10 : i = 10
      · subst h10; decide
      · by_cases h11 : i = 11
        · subst h11; decide
        · simp [h7, h6, h10, h11, Ne.symm h7, Ne.symm h6, Ne.symm h10, Ne.symm h11]

/-- Push `testBit` through the `status |= k` accumulation pattern. -/
theorem testBit_ite_or (P : Prop) [Decidable P] (x k i : Nat) :
    (if P then x ||| k else x).testBit i = (x.testBit i || (decide P && k.testBit i)) := by
  split <;> simp_all

theorem testBit_ite_or2 (P : Prop) [Decidable P] (x k1 k2 i : Nat) :
    (if P then x ||| k1 ||| k2 else x).testBit i =
      (x.testBit i || (decide P && (k1.testBit i || k2.testBit i))) := by
  split <;> simp_all [Bool.or_assoc]

theorem testBit_ite (P : Prop) [Decidable P] (a b i : Nat) :
    (if P then a else b).testBit i = if P then a.testBit i else b.testBit i := by
  split <;> rfl

/-- The port-speed word only ever contributes bits 9 and 10. -/
theorem ehci_port_speed_testBit (c : EhciCaps) (x i : Nat)
    (h9 : i ≠ 9) (h10 : i ≠ 10) : (ehci_port_speed c x).testBit i = false := by
  unfold ehci_port_speed
  split
  · split
    · simp
    · split
      · simpa [USB_PORT_STAT_LOW_SPEED] using
          (by simpa using Nat.testBit_two_pow_of_ne (Ne.symm h9) : (512 : Nat).testBit i = false)
      · simpa [USB_PORT_STAT_HIGH_SPEED] using
          (by simpa using Nat.testBit_two_pow_of_ne (Ne.symm h10) : (1024 : Nat).testBit i = false)
  · simpa [USB_PORT_STAT_HIGH_SPEED] using
      (by simpa using Nat.testBit_two_pow_of_ne (Ne.symm h10) : (1024 : Nat).testBit i = false)

/-! ## Concrete fixtures for witnesses and counterexamples -/

/-- A plain one-port controller: no errata, no TDI, per-port power
switching, over-current honoured, remote wakeup off. -/
def capsA : EhciCaps where
  nPorts := 1
  ppc := true
  debugPort := 0
  isTDI := false
  has_hostpc := false
  has_lpm := false
  has_ppcd := false
  no_selective_suspend := false
  susp_sof_bug := false
  resume_sof_bug := false
  reset_sof_bug := false
  has_amcc_usb23 := false
  debugActive := false
  ulpi := false
  ehset := false
  otg := false
  otgPort := 0
  b_hnp_enable := false
  companion_ports := 0
  do_remote_wakeup := false
  ignore_oc := false

/-- An idle one-port state: no connections, no tracker bits. -/
def stA : EhciState where
  portReg := [0]
  hostpc := [0]
  statusReg := 0
  commandReg := 1
  intrEnable := 0
  command := 0
  resuming_ports := 0
  suspended_ports := 0
  port_c_suspend := 0
  bus_suspended := 0
  owned_ports := 0
  reset_done := [0]
  rh_state := RhState.running
  next_statechange := 0
  rhTimer := none

def envA : Env where
  jiffies := 100
  hsResumeOk := true
  hsResetOk := true
  ehsetRet := 0

/-! ## C1 — bus_suspend and the "busy" gate -/

/-- C1 (counterexample to the claim as stated): when remote wakeup is
disabled for the root hub, `ehci_bus_suspend` does NOT fail with "busy"
even though a port resume is pending (`resuming_ports ≠ 0`); the busy
check at ehci-hub.c lines 225-231 sits inside
`if (hcd->self.root_hub->do_remote_wakeup)`. -/
theorem ehci_bus_suspend_busy_cex :
    ({ stA with resuming_ports := 1 } : EhciState).resuming_ports ≠ 0 ∧
      capsA.do_remote_wakeup = false ∧
      (ehci_bus_suspend capsA envA { stA with resuming_ports := 1 }).1 = 0 := by
  decide

/-- C1 (amended): `ehci_bus_suspend` fails with `-EBUSY`, mutating
nothing, exactly when remote wakeup is enabled for the root hub and a
port resume is pending; with no resume pending (or remote wakeup
disabled) it never reports busy and returns success. -/
theorem ehci_bus_suspend_busy_gate (c : EhciCaps) (env : Env) (s : EhciState) :
    (c.do_remote_wakeup = true → s.resuming_ports ≠ 0 →
      ehci_bus_suspend c env s = (-EBUSY, s)) ∧
    (s.resuming_ports = 0 → (ehci_bus_suspend c env s).1 = 0) ∧
    (c.do_remote_wakeup = false → (ehci_bus_suspend c env s).1 = 0) := by
  refine ⟨?_, ?_, ?_⟩
  · intro hw hr
    unfold ehci_bus_suspend
    rw [if_pos ⟨hw, hr⟩]
  · intro hr
    unfold ehci_bus_suspend
    rw [if_neg (by simp [hr])]
  · intro hw
    unfold ehci_bus_suspend
    rw [if_neg (by simp [hw])]

/-- C1 witness: the amended theorem applied to a resuming one-port
state with remote wakeup on, and to a quiet state. -/
theorem ehci_bus_suspend_busy_gate_wit :
    (ehci_bus_suspend { capsA with do_remote_wakeup := true } envA
        { stA with resuming_ports := 1 } =
      (-EBUSY, { stA with resuming_ports := 1 })) ∧
    (ehci_bus_suspend capsA envA stA).1 = 0 := by
  refine ⟨?_, ?_⟩
  · exact (ehci_bus_suspend_busy_gate { capsA with do_remote_wakeup := true } envA
      { stA with resuming_ports := 1 }).1 (by decide) (by decide)
  · exact (ehci_bus_suspend_busy_gate capsA envA stA).2.1 (by decide)

/-! ## C8 — ClearPortFeature(SUSPEND) idempotence -/

/-- C8: on an in-range port, `ClearPortFeature(port, SUSPEND)` is a
successful no-op when the hardware suspend bit is clear and the port is
not mid-reset; it is likewise a successful no-op whenever selective
suspend is disabled for the controller (and the port is not mid-reset);
and it stalls with `-EPIPE`, mutating nothing, when the reset bit is
set (ehci-hub.c lines 895-926). -/
theorem clearPortFeature_suspend_noop (c : EhciCaps) (env : Env) (s : EhciState)
    (wIndex : Nat) (hlo : wIndex ≠ 0) (hhi : wIndex ≤ c.nPorts) :
    ((readPort s (wIndex - 1)).testBit 8 = false →
      (readPort s (wIndex - 1)).testBit 7 = false →
      clearPortFeature c env s USB_PORT_FEAT_SUSPEND wIndex = (0, s)) ∧
    ((readPort s (wIndex - 1)).testBit 8 = false →
      c.no_selective_suspend = true →
      clearPortFeature c env s USB_PORT_FEAT_SUSPEND wIndex = (0, s)) ∧
    ((readPort s (wIndex - 1)).testBit 8 = true →
      clearPortFeature c env s USB_PORT_FEAT_SUSPEND wIndex = (-EPIPE, s)) := by
  have hrange : ¬(wIndex = 0 ∨ c.nPorts < wIndex) := by
    push_neg
    exact ⟨hlo, hhi⟩
  refine ⟨?_, ?_, ?_⟩
  · intro h8 h7
    unfold clearPortFeature
    rw [if_neg hrange]
    simp [USB_PORT_FEAT_ENABLE, USB_PORT_FEAT_C_ENABLE, USB_PORT_FEAT_SUSPEND,
      h8, h7]
  · intro h8 hns
    unfold clearPortFeature
    rw [if_neg hrange]
    simp [USB_PORT_FEAT_ENABLE, USB_PORT_FEAT_C_ENABLE, USB_PORT_FEAT_SUSPEND,
      h8, hns]
  · intro h8
    unfold clearPortFeature
    rw [if_neg hrange]
    simp [USB_PORT_FEAT_ENABLE, USB_PORT_FEAT_C_ENABLE, USB_PORT_FEAT_SUSPEND,
      h8]

/-- C8 witness: a connected enabled unsuspended port accepts the clear
as a no-op; a mid-reset port stalls. -/
theorem clearPortFeature_suspend_noop_wit :
    (clearPortFeature capsA envA { stA with portReg := [5] }
        USB_PORT_FEAT_SUSPEND 1 = (0, { stA with portReg := [5] })) ∧
    (clearPortFeature capsA envA { stA with portReg := [256 + 5] }
        USB_PORT_FEAT_SUSPEND 1 = (-EPIPE, { stA with portReg := [256 + 5] })) := by
  refine ⟨?_, ?_⟩
  · exact (clearPortFeature_suspend_noop capsA envA { stA with portReg := [5] }
      1 (by decide) (by decide)).1 (by decide) (by decide)
  · exact (clearPortFeature_suspend_noop capsA envA { stA with portReg := [256 + 5] }
      1 (by decide) (by decide)).2.2 (by decide)

/-! ## C5 — requests against a companion-owned port -/

/-- C5 (counterexample to the claim as stated): with the debug-port
facility active on the (companion-owned, in-range) port,
`SetPortFeature` is denied with `-ENODEV` instead of being silently
accepted — the debug check at ehci-hub.c lines 1134-1142 precedes the
owner check. -/
theorem setPortFeature_owned_cex :
    (readPort { stA with portReg := [8192] } 0).testBit 13 = true ∧
      (setPortFeature { capsA with debugActive := true, debugPort := 1 } envA
        { stA with portReg := [8192] } USB_PORT_FEAT_POWER 1).1 = -ENODEV ∧
      (setPortFeature { capsA with debugActive := true, debugPort := 1 } envA
        { stA with portReg := [8192] } USB_PORT_FEAT_POWER 1).1 ≠ 0 := by
  decide

/-- C5 (amended): on an in-range port whose hardware ownership bit is
set, provided the debug-port facility is not active, every
`SetPortFeature` request (any feature, any selector) returns success
and changes nothing, while `ClearPortFeature` still performs its
change-bit clears: C_CONNECTION, C_ENABLE and C_OVER_CURRENT clear the
respective hardware change bits and C_SUSPEND clears the tracked
suspend-change flag. -/
theorem hub_control_owned_port (c : EhciCaps) (env : Env) (s : EhciState)
    (wIndex : Nat) (hdbg : c.debugActive = false) (hlo : wIndex ≠ 0)
    (hhi : wIndex ≤ c.nPorts) (hlen : wIndex - 1 < s.portReg.length)
    (howner : (readPort s (wIndex - 1)).testBit 13 = true) :
    (∀ wValue wIndexFull, wIndexFull &&& 0xff = wIndex →
      setPortFeature c env s wValue wIndexFull = (0, s)) ∧
    ((clearPortFeature c env s USB_PORT_FEAT_C_CONNECTION wIndex).1 = 0 ∧
      (readPort (clearPortFeature c env s USB_PORT_FEAT_C_CONNECTION wIndex).2
        (wIndex - 1)).testBit 1 = false) ∧
    ((clearPortFeature c env s USB_PORT_FEAT_C_ENABLE wIndex).1 = 0 ∧
      (readPort (clearPortFeature c env s USB_PORT_FEAT_C_ENABLE wIndex).2
        (wIndex - 1)).testBit 3 = false) ∧
    ((clearPortFeature c env s USB_PORT_FEAT_C_OVER_CURRENT wIndex).1 = 0 ∧
      (readPort (clearPortFeature c env s USB_PORT_FEAT_C_OVER_CURRENT wIndex).2
        (wIndex - 1)).testBit 5 = false) ∧
    ((clearPortFeature c env s USB_PORT_FEAT_C_SUSPEND wIndex).1 = 0 ∧
      ((clearPortFeature c env s USB_PORT_FEAT_C_SUSPEND wIndex).2.port_c_suspend.testBit
        (wIndex - 1)) = false) := by
  have hrange : ¬(wIndex = 0 ∨ c.nPorts < wIndex) := by
    push_neg
    exact ⟨hlo, hhi⟩
  refine ⟨?_, ⟨?_, ?_⟩, ⟨?_, ?_⟩, ⟨?_, ?_⟩, ⟨?_, ?_⟩⟩
  · intro wValue wIndexFull hw
    unfold setPortFeature
    simp only [hw, hdbg, Bool.false_and, Bool.false_eq_true, if_false]
    rw [if_neg hrange]
    simp [howner]
  · unfold clearPortFeature
    rw [if_neg hrange]
    simp [USB_PORT_FEAT_ENABLE, USB_PORT_FEAT_C_ENABLE, USB_PORT_FEAT_SUSPEND,
      USB_PORT_FEAT_C_SUSPEND, USB_PORT_FEAT_POWER, USB_PORT_FEAT_C_CONNECTION]
  · unfold clearPortFeature
    rw [if_neg hrange]
    simp only [USB_PORT_FEAT_ENABLE, USB_PORT_FEAT_C_ENABLE, USB_PORT_FEAT_SUSPEND,
      USB_PORT_FEAT_C_SUSPEND, USB_PORT_FEAT_POWER, USB_PORT_FEAT_C_CONNECTION]
    norm_num
    rw [readPort_writePort_self _ _ _ hlen, testBit_wrReg _ _ _ (by norm_num),
      if_pos (by norm_num : (1 : Nat) = 1 ∨ (1 : Nat) = 3 ∨ (1 : Nat) = 5)]
    have hb : PORT_CSC.testBit 1 = true := by decide
    simp [Nat.testBit_or, hb]
  · unfold clearPortFeature
    rw [if_neg hrange]
    simp [USB_PORT_FEAT_ENABLE, USB_PORT_FEAT_C_ENABLE]
  · unfold clearPortFeature
    rw [if_neg hrange]
    simp only [USB_PORT_FEAT_ENABLE, USB_PORT_FEAT_C_ENABLE]
    norm_num
    rw [readPort_writePort_self _ _ _ hlen, testBit_wrReg _ _ _ (by norm_num),
      if_pos (by norm_num : (3 : Nat) = 1 ∨ (3 : Nat) = 3 ∨ (3 : Nat) = 5)]
    have hb : PORT_PEC.testBit 3 = true := by decide
    simp [Nat.testBit_or, hb]
  · unfold clearPortFeature
    rw [if_neg hrange]
    simp [USB_PORT_FEAT_ENABLE, USB_PORT_FEAT_C_ENABLE, USB_PORT_FEAT_SUSPEND,
      USB_PORT_FEAT_C_SUSPEND, USB_PORT_FEAT_POWER, USB_PORT_FEAT_C_CONNECTION,
      USB_PORT_FEAT_C_OVER_CURRENT]
  · unfold clearPortFeature
    rw [if_neg hrange]
    simp only [USB_PORT_FEAT_ENABLE, USB_PORT_FEAT_C_ENABLE, USB_PORT_FEAT_SUSPEND,
      USB_PORT_FEAT_C_SUSPEND, USB_PORT_FEAT_POWER, USB_PORT_FEAT_C_CONNECTION,
      USB_PORT_FEAT_C_OVER_CURRENT]
    norm_num
    rw [readPort_writePort_self _ _ _ hlen, testBit_wrReg _ _ _ (by norm_num),
      if_pos (by norm_num : (5 : Nat) = 1 ∨ (5 : Nat) = 3 ∨ (5 : Nat) = 5)]
    have hb : PORT_OCC.testBit 5 = true := by decide
    simp [Nat.testBit_or, hb]
  · unfold clearPortFeature
    rw [if_neg hrange]
    simp [USB_PORT_FEAT_ENABLE, USB_PORT_FEAT_C_ENABLE, USB_PORT_FEAT_SUSPEND,
      USB_PORT_FEAT_C_SUSPEND]
  · unfold clearPortFeature
    rw [if_neg hrange]
    simp only [USB_PORT_FEAT_ENABLE, USB_PORT_FEAT_C_ENABLE, USB_PORT_FEAT_SUSPEND,
      USB_PORT_FEAT_C_SUSPEND]
    norm_num
    simp [testBit_clrBit]

/-- C5 witness: the amended theorem at an owned one-port state with all
change bits latched. -/
theorem hub_control_owned_port_wit :
    (setPortFeature capsA envA { stA with portReg := [8192 + 42], port_c_suspend := 1 }
      USB_PORT_FEAT_POWER 1 = (0, { stA with portReg := [8192 + 42], port_c_suspend := 1 })) ∧
    (readPort (clearPortFeature capsA envA
      { stA with portReg := [8192 + 42], port_c_suspend := 1 }
      USB_PORT_FEAT_C_CONNECTION 1).2 0).testBit 1 = false := by
  have h := hub_control_owned_port capsA envA
    { stA with portReg := [8192 + 42], port_c_suspend := 1 } 1
    (by decide) (by decide) (by decide) (by decide) (by decide)
  exact ⟨h.1 USB_PORT_FEAT_POWER 1 (by decide), h.2.1.2⟩

/-! ## C6 — uniform stall on failed validation -/

/-- C6 (counterexample to the claim as stated): an unsupported feature
code sent by `SetPortFeature` to a companion-owned in-range port does
NOT stall — the owner check at ehci-hub.c line 1147 silently accepts
the request before the feature switch can reject it. -/
theorem hub_control_validation_cex :
    (readPort { stA with portReg := [8192] } 0).testBit 13 = true ∧
      ehci_hub_control capsA envA { stA with portReg := [8192] }
        SetPortFeature 99 1 = (0, none, { stA with portReg := [8192] }) := by
  decide

/-- C6 (amended): every request that fails validation returns the
uniform `-EPIPE` stall with no state mutated: bad port index for
ClearPortFeature / GetPortStatus / SetPortFeature, unsupported feature
selectors for the hub-feature and port-feature requests, and unknown
request types — where for SetPortFeature this holds provided the
debug-port facility is inactive and the addressed port is not
companion-owned (an owned port silently accepts any feature, see the
C5 theorems). -/
theorem hub_control_validation (c : EhciCaps) (env : Env) (s : EhciState)
    (hdbg : c.debugActive = false) :
    (∀ wValue wIndex, (wIndex = 0 ∨ c.nPorts < wIndex) →
      ehci_hub_control c env s ClearPortFeature wValue wIndex = (-EPIPE, none, s)) ∧
    (∀ wValue wIndex, (wIndex = 0 ∨ c.nPorts < wIndex) →
      ehci_hub_control c env s GetPortStatus wValue wIndex = (-EPIPE, none, s)) ∧
    (∀ wValue wIndexFull, (wIndexFull &&& 0xff = 0 ∨ c.nPorts < wIndexFull &&& 0xff) →
      ehci_hub_control c env s SetPortFeature wValue wIndexFull = (-EPIPE, none, s)) ∧
    (∀ wValue wIndex, wValue ≠ C_HUB_LOCAL_POWER → wValue ≠ C_HUB_OVER_CURRENT →
      ehci_hub_control c env s ClearHubFeature wValue wIndex = (-EPIPE, none, s) ∧
      ehci_hub_control c env s SetHubFeature wValue wIndex = (-EPIPE, none, s)) ∧
    (∀ wValue wIndex, wIndex ≠ 0 → wIndex ≤ c.nPorts →
      wValue ≠ USB_PORT_FEAT_ENABLE → wValue ≠ USB_PORT_FEAT_C_ENABLE →
      wValue ≠ USB_PORT_FEAT_SUSPEND → wValue ≠ USB_PORT_FEAT_C_SUSPEND →
      wValue ≠ USB_PORT_FEAT_POWER → wValue ≠ USB_PORT_FEAT_C_CONNECTION →
      wValue ≠ USB_PORT_FEAT_C_OVER_CURRENT → wValue ≠ USB_PORT_FEAT_C_RESET →
      ehci_hub_control c env s ClearPortFeature wValue wIndex = (-EPIPE, none, s)) ∧
    (∀ wValue wIndexFull, wIndexFull &&& 0xff ≠ 0 → wIndexFull &&& 0xff ≤ c.nPorts →
      (readPort s ((wIndexFull &&& 0xff) - 1)).testBit 13 = false →
      wValue ≠ USB_PORT_FEAT_SUSPEND → wValue ≠ USB_PORT_FEAT_POWER →
      wValue ≠ USB_PORT_FEAT_RESET → wValue ≠ USB_PORT_FEAT_TEST →
      ehci_hub_control c env s SetPortFeature wValue wIndexFull = (-EPIPE, none, s)) ∧
    (∀ typeReq wValue wIndex, typeReq ≠ ClearHubFeature → typeReq ≠ ClearPortFeature →
      typeReq ≠ GetHubDescriptor → typeReq ≠ GetHubStatus → typeReq ≠ GetPortStatus →
      typeReq ≠ SetHubFeature → typeReq ≠ SetPortFeature →
      ehci_hub_control c env s typeReq wValue wIndex = (-EPIPE, none, s)) := by
  refine ⟨?_, ?_, ?_, ?_, ?_, ?_, ?_⟩
  · intro wValue wIndex hbad
    simp only [ehci_hub_control, ClearHubFeature, ClearPortFeature]
    norm_num
    unfold clearPortFeature
    rw [if_pos hbad]
    exact ⟨rfl, rfl⟩
  · intro wValue wIndex hbad
    simp only [ehci_hub_control, ClearHubFeature, ClearPortFeature, GetHubDescriptor,
      GetHubStatus, GetPortStatus]
    norm_num
    unfold getPortStatus
    rw [if_pos hbad]
  · intro wValue wIndexFull hbad
    simp only [ehci_hub_control, ClearHubFeature, ClearPortFeature, GetHubDescriptor,
      GetHubStatus, GetPortStatus, SetHubFeature, SetPortFeature]
    norm_num
    unfold setPortFeature
    simp only [hdbg, Bool.false_and, Bool.false_eq_true, if_false]
    rw [if_pos hbad]
    exact ⟨rfl, rfl⟩
  · intro wValue wIndex h0 h1
    simp only [ehci_hub_control, ClearHubFeature, ClearPortFeature, GetHubDescriptor,
      GetHubStatus, GetPortStatus, SetHubFeature, SetPortFeature]
    norm_num
    unfold hubFeature
    simp only [C_HUB_LOCAL_POWER, C_HUB_OVER_CURRENT] at h0 h1
    rw [if_neg (by push_neg; exact ⟨h0, h1⟩)]
    exact ⟨rfl, rfl⟩
  · intro wValue wIndex hlo hhi h1 h2 h3 h4 h5 h6 h7 h8
    simp only [ehci_hub_control, ClearHubFeature, ClearPortFeature]
    norm_num
    unfold clearPortFeature
    rw [if_neg (by push_neg; exact ⟨hlo, hhi⟩)]
    simp only [USB_PORT_FEAT_ENABLE, USB_PORT_FEAT_C_ENABLE, USB_PORT_FEAT_SUSPEND,
      USB_PORT_FEAT_C_SUSPEND, USB_PORT_FEAT_POWER, USB_PORT_FEAT_C_CONNECTION,
      USB_PORT_FEAT_C_OVER_CURRENT, USB_PORT_FEAT_C_RESET] at h1 h2 h3 h4 h5 h6 h7 h8
    simp [h1, h2, h3, h4, h5, h6, h7, h8, USB_PORT_FEAT_ENABLE,
      USB_PORT_FEAT_C_ENABLE, USB_PORT_FEAT_SUSPEND, USB_PORT_FEAT_C_SUSPEND,
      USB_PORT_FEAT_POWER, USB_PORT_FEAT_C_CONNECTION, USB_PORT_FEAT_C_OVER_CURRENT,
      USB_PORT_FEAT_C_RESET]
  · intro wValue wIndexFull hlo hhi howner h1 h2 h3 h4
    simp only [ehci_hub_control, ClearHubFeature, ClearPortFeature, GetHubDescriptor,
      GetHubStatus, GetPortStatus, SetHubFeature, SetPortFeature]
    norm_num
    unfold setPortFeature
    simp only [hdbg, Bool.false_and, Bool.false_eq_true, if_false]
    rw [if_neg (by push_neg; exact ⟨hlo, hhi⟩)]
    simp only [USB_PORT_FEAT_SUSPEND, USB_PORT_FEAT_POWER, USB_PORT_FEAT_RESET,
      USB_PORT_FEAT_TEST] at h1 h2 h3 h4
    simp [howner, h1, h2, h3, h4, USB_PORT_FEAT_SUSPEND, USB_PORT_FEAT_POWER,
      USB_PORT_FEAT_RESET, USB_PORT_FEAT_TEST]
  · intro typeReq wValue wIndex h1 h2 h3 h4 h5 h6 h7
    simp [ehci_hub_control, h1, h2, h3, h4, h5, h6, h7]

/-- C6 witness: stall with unchanged state for a bad index, an
unsupported hub feature, an unsupported port feature on an unowned
port, and an unknown request type. -/
theorem hub_control_validation_wit :
    (ehci_hub_control capsA envA stA ClearPortFeature USB_PORT_FEAT_ENABLE 2 =
      (-EPIPE, none, stA)) ∧
    (ehci_hub_control capsA envA stA ClearHubFeature 7 0 = (-EPIPE, none, stA)) ∧
    (ehci_hub_control capsA envA stA ClearPortFeature 99 1 = (-EPIPE, none, stA)) ∧
    (ehci_hub_control capsA envA stA SetPortFeature 99 1 = (-EPIPE, none, stA)) ∧
    (ehci_hub_control capsA envA stA 0x1234 0 0 = (-EPIPE, none, stA)) := by
  have h := hub_control_validation capsA envA stA (by decide)
  refine ⟨?_, ?_, ?_, ?_, ?_⟩
  · exact h.1 USB_PORT_FEAT_ENABLE 2 (by decide)
  · exact (h.2.2.2.1 7 0 (by decide) (by decide)).1
  · exact h.2.2.2.2.1 99 1 (by decide) (by decide) (by decide) (by decide)
      (by decide) (by decide) (by decide) (by decide) (by decide) (by decide)
  · exact h.2.2.2.2.2.1 99 1 (by decide) (by decide) (by decide) (by decide)
      (by decide) (by decide) (by decide)
  · exact h.2.2.2.2.2.2 0x1234 0 0 (by decide) (by decide) (by decide) (by decide)
      (by decide) (by decide) (by decide)

theorem testBit_clearM_RWC (x i : Nat) (hi : i < 32) (h1 : i ≠ 1) (h3 : i ≠ 3)
    (h5 : i ≠ 5) : (clearM x PORT_RWC_BITS).testBit i = x.testBit i := by
  rw [testBit_clearM]
  simp [testBit_RWC, h1, h3, h5, hi]

/-! ## C3 — SetPortFeature(RESET) -/

/-- C3: on an in-range, non-owned port (debug facility inactive,
reset-timing erratum absent): a set resume bit stalls the request with
no mutation; a connected-but-unenabled low-speed port (K-state line
status) on a non-TDI controller is handed to the companion — ownership
bit set, no reset started, no deadline recorded; otherwise the reset
bit is asserted, the enable bit cleared, and a 50-unit deadline is
recorded (ehci-hub.c lines 1201-1226). -/
theorem setPortFeature_reset_behavior (c : EhciCaps) (env : Env) (s : EhciState)
    (wIndexFull wIndex : Nat)
    (hdbg : c.debugActive = false) (hbug : c.reset_sof_bug = false)
    (hwf : wIndexFull &&& 0xff = wIndex)
    (hlo : wIndex ≠ 0) (hhi : wIndex ≤ c.nPorts)
    (hlen : wIndex - 1 < s.portReg.length)
    (hlen2 : wIndex - 1 < s.reset_done.length)
    (howner : (readPort s (wIndex - 1)).testBit 13 = false) :
    ((readPort s (wIndex - 1)).testBit 6 = true →
      setPortFeature c env s USB_PORT_FEAT_RESET wIndexFull = (-EPIPE, s)) ∧
    ((readPort s (wIndex - 1)).testBit 6 = false →
     (readPort s (wIndex - 1)).testBit 8 = false →
     ((readPort s (wIndex - 1)).testBit 0 && !(readPort s (wIndex - 1)).testBit 2 &&
       !c.isTDI && (readPort s (wIndex - 1)).testBit 10 &&
       !(readPort s (wIndex - 1)).testBit 11) = true →
      (setPortFeature c env s USB_PORT_FEAT_RESET wIndexFull).1 = 0 ∧
      (readPort (setPortFeature c env s USB_PORT_FEAT_RESET wIndexFull).2
        (wIndex - 1)).testBit 13 = true ∧
      (readPort (setPortFeature c env s USB_PORT_FEAT_RESET wIndexFull).2
        (wIndex - 1)).testBit 8 = false ∧
      (setPortFeature c env s USB_PORT_FEAT_RESET wIndexFull).2.reset_done =
        s.reset_done) ∧
    ((readPort s (wIndex - 1)).testBit 6 = false →
     ((readPort s (wIndex - 1)).testBit 0 && !(readPort s (wIndex - 1)).testBit 2 &&
       !c.isTDI && (readPort s (wIndex - 1)).testBit 10 &&
       !(readPort s (wIndex - 1)).testBit 11) = false →
      (setPortFeature c env s USB_PORT_FEAT_RESET wIndexFull).1 = 0 ∧
      (readPort (setPortFeature c env s USB_PORT_FEAT_RESET wIndexFull).2
        (wIndex - 1)).testBit 8 = true ∧
      (readPort (setPortFeature c env s USB_PORT_FEAT_RESET wIndexFull).2
        (wIndex - 1)).testBit 2 = false ∧
      (setPortFeature c env s USB_PORT_FEAT_RESET wIndexFull).2.reset_done.getD
        (wIndex - 1) 0 = env.jiffies + 50) := by
  have hrange : ¬(wIndex = 0 ∨ c.nPorts < wIndex) := by
    push_neg
    exact ⟨hlo, hhi⟩
  have ht6 : (clearM (readPort s (wIndex - 1)) PORT_RWC_BITS).testBit 6 =
      (readPort s (wIndex - 1)).testBit 6 :=
    testBit_clearM_RWC _ 6 (by norm_num) (by norm_num) (by norm_num) (by norm_num)
  have ht0 : (clearM (readPort s (wIndex - 1)) PORT_RWC_BITS).testBit 0 =
      (readPort s (wIndex - 1)).testBit 0 :=
    testBit_clearM_RWC _ 0 (by norm_num) (by norm_num) (by norm_num) (by norm_num)
  have ht2 : (clearM (readPort s (wIndex - 1)) PORT_RWC_BITS).testBit 2 =
      (readPort s (wIndex - 1)).testBit 2 :=
    testBit_clearM_RWC _ 2 (by norm_num) (by norm_num) (by norm_num) (by norm_num)
  have ht8 : (clearM (readPort s (wIndex - 1)) PORT_RWC_BITS).testBit 8 =
      (readPort s (wIndex - 1)).testBit 8 :=
    testBit_clearM_RWC _ 8 (by norm_num) (by norm_num) (by norm_num) (by norm_num)
  have ht10 : (clearM (readPort s (wIndex - 1)) PORT_RWC_BITS).testBit 10 =
      (readPort s (wIndex - 1)).testBit 10 :=
    testBit_clearM_RWC _ 10 (by norm_num) (by norm_num) (by norm_num) (by norm_num)
  have ht11 : (clearM (readPort s (wIndex - 1)) PORT_RWC_BITS).testBit 11 =
      (readPort s (wIndex - 1)).testBit 11 :=
    testBit_clearM_RWC _ 11 (by norm_num) (by norm_num) (by norm_num) (by norm_num)
  have cowner : tst (readPort s (wIndex - 1)) PORT_OWNER = false := by
    rw [tst_PORT_OWNER]; exact howner
  refine ⟨?_, ?_, ?_⟩
  · intro h6
    have cres : tst (clearM (readPort s (wIndex - 1)) PORT_RWC_BITS) PORT_RESUME = true := by
      rw [tst_PORT_RESUME, ht6]; exact h6
    unfold setPortFeature
    simp only [hwf, hdbg, Bool.false_and, Bool.false_eq_true, eq_false hrange,
      cowner, cres,
      eq_false (by decide : ¬(USB_PORT_FEAT_RESET = USB_PORT_FEAT_SUSPEND)),
      eq_false (by decide : ¬(USB_PORT_FEAT_RESET = USB_PORT_FEAT_POWER)),
      eq_self_iff_true, if_false, if_true]
  · intro h6 h8 hhand
    have cres : tst (clearM (readPort s (wIndex - 1)) PORT_RWC_BITS) PORT_RESUME = false := by
      rw [tst_PORT_RESUME, ht6]; exact h6
    have chand : (tst (clearM (readPort s (wIndex - 1)) PORT_RWC_BITS) PORT_CONNECT &&
        !(tst (clearM (readPort s (wIndex - 1)) PORT_RWC_BITS) PORT_PE) &&
        !c.isTDI &&
        tst (clearM (readPort s (wIndex - 1)) PORT_RWC_BITS) PORT_LS_K &&
        !(tst (clearM (readPort s (wIndex - 1)) PORT_RWC_BITS) PORT_LS_J)) = true := by
      rw [tst_PORT_CONNECT, tst_PORT_PE, tst_PORT_LS_K, tst_PORT_LS_J,
        ht0, ht2, ht10, ht11]
      exact hhand
    have hres : setPortFeature c env s USB_PORT_FEAT_RESET wIndexFull =
        (0, writePort s (wIndex - 1)
          (clearM (readPort s (wIndex - 1)) PORT_RWC_BITS ||| PORT_OWNER)) := by
      unfold setPortFeature
      simp only [hwf, hdbg, Bool.false_and, Bool.false_eq_true, eq_false hrange,
        cowner, cres, chand, hbug,
        eq_false (by decide : ¬(USB_PORT_FEAT_RESET = USB_PORT_FEAT_SUSPEND)),
        eq_false (by decide : ¬(USB_PORT_FEAT_RESET = USB_PORT_FEAT_POWER)),
        eq_self_iff_true, if_false, if_true]
    rw [hres]
    refine ⟨rfl, ?_, ?_, rfl⟩
    · rw [readPort_writePort_self _ _ _ hlen, testBit_wrReg _ _ _ (by norm_num),
        if_neg (by norm_num)]
      simp only [Nat.testBit_or, show PORT_OWNER.testBit 13 = true from by decide,
        Bool.or_true]
    · rw [readPort_writePort_self _ _ _ hlen, testBit_wrReg _ _ _ (by norm_num),
        if_neg (by norm_num)]
      simp only [Nat.testBit_or, ht8, h8,
        show PORT_OWNER.testBit 8 = false from by decide, Bool.or_false]
  · intro h6 hhand
    have cres : tst (clearM (readPort s (wIndex - 1)) PORT_RWC_BITS) PORT_RESUME = false := by
      rw [tst_PORT_RESUME, ht6]; exact h6
    have chand : (tst (clearM (readPort s (wIndex - 1)) PORT_RWC_BITS) PORT_CONNECT &&
        !(tst (clearM (readPort s (wIndex - 1)) PORT_RWC_BITS) PORT_PE) &&
        !c.isTDI &&
        tst (clearM (readPort s (wIndex - 1)) PORT_RWC_BITS) PORT_LS_K &&
        !(tst (clearM (readPort s (wIndex - 1)) PORT_RWC_BITS) PORT_LS_J)) = false := by
      rw [tst_PORT_CONNECT, tst_PORT_PE, tst_PORT_LS_K, tst_PORT_LS_J,
        ht0, ht2, ht10, ht11]
      exact hhand
    have hres : setPortFeature c env s USB_PORT_FEAT_RESET wIndexFull =
        (0, writePort
          { s with reset_done := s.reset_done.set (wIndex - 1) (env.jiffies + 50) }
          (wIndex - 1)
          (clearM (clearM (readPort s (wIndex - 1)) PORT_RWC_BITS ||| PORT_RESET)
            PORT_PE)) := by
      unfold setPortFeature
      simp only [hwf, hdbg, Bool.false_and, Bool.false_eq_true, eq_false hrange,
        cowner, cres, chand, hbug,
        eq_false (by decide : ¬(USB_PORT_FEAT_RESET = USB_PORT_FEAT_SUSPEND)),
        eq_false (by decide : ¬(USB_PORT_FEAT_RESET = USB_PORT_FEAT_POWER)),
        eq_self_iff_true, if_false, if_true]
    have hread : readPort { s with reset_done := s.reset_done.set (wIndex - 1) (env.jiffies + 50) } (wIndex - 1) = readPort s (wIndex - 1) := rfl
    have hlen3 : wIndex - 1 < (EhciState.portReg { s with reset_done := s.reset_done.set (wIndex - 1) (env.jiffies + 50) }).length := hlen
    rw [hres]
    refine ⟨rfl, ?_, ?_, ?_⟩
    · rw [readPort_writePort_self _ _ _ hlen3, hread,
        testBit_wrReg _ _ _ (by norm_num), if_neg (by norm_num), testBit_clearM]
      simp
      exact ⟨Or.inr (by decide), by decide⟩
    · rw [readPort_writePort_self _ _ _ hlen3, hread,
        testBit_wrReg _ _ _ (by norm_num), if_neg (by norm_num), testBit_clearM]
      simp
      intro h
      decide
    · exact getD_set_self _ _ _ hlen2

/-- C3 witness: the three cases at concrete one-port states — resume in
flight (reg bit 6), a low-speed unenabled connected device (handoff),
and a connected enabled device (reset started). -/
theorem setPortFeature_reset_behavior_wit :
    (setPortFeature capsA envA { stA with portReg := [69] }
      USB_PORT_FEAT_RESET 1 = (-EPIPE, { stA with portReg := [69] })) ∧
    ((readPort (setPortFeature capsA envA { stA with portReg := [1025] }
      USB_PORT_FEAT_RESET 1).2 0).testBit 13 = true) ∧
    ((readPort (setPortFeature capsA envA { stA with portReg := [5] }
      USB_PORT_FEAT_RESET 1).2 0).testBit 8 = true ∧
     (setPortFeature capsA envA { stA with portReg := [5] }
      USB_PORT_FEAT_RESET 1).2.reset_done.getD 0 0 = 150) := by
  refine ⟨?_, ?_, ?_, ?_⟩
  · exact (setPortFeature_reset_behavior capsA envA { stA with portReg := [69] } 1 1
      (by decide) (by decide) (by decide) (by decide) (by decide) (by decide)
      (by decide) (by decide)).1 (by decide)
  · exact ((setPortFeature_reset_behavior capsA envA { stA with portReg := [1025] } 1 1
      (by decide) (by decide) (by decide) (by decide) (by decide) (by decide)
      (by decide) (by decide)).2.1 (by decide) (by decide) (by decide)).2.1
  · exact ((setPortFeature_reset_behavior capsA envA { stA with portReg := [5] } 1 1
      (by decide) (by decide) (by decide) (by decide) (by decide) (by decide)
      (by decide) (by decide)).2.2 (by decide) (by decide)).2.1
  · exact ((setPortFeature_reset_behavior capsA envA { stA with portReg := [5] } 1 1
      (by decide) (by decide) (by decide) (by decide) (by decide) (by decide)
      (by decide) (by decide)).2.2 (by decide) (by decide)).2.2.2

/-! ## Stage facts for the Status Resolution Algorithm -/

theorem gps_chg_readPort (c : EhciCaps) (s : EhciState) (p : Nat) :
    readPort (gps_chg c s p).2.2 p = (gps_chg c s p).2.1 := by
  simp only [gps_chg]
  split_ifs <;> rfl

theorem gps_chg_frame (c : EhciCaps) (s : EhciState) (p : Nat) :
    (gps_chg c s p).2.2.reset_done = s.reset_done ∧
    (gps_chg c s p).2.2.resuming_ports = s.resuming_ports ∧
    (gps_chg c s p).2.2.suspended_ports = s.suspended_ports ∧
    (gps_chg c s p).2.2.port_c_suspend = s.port_c_suspend ∧
    (gps_chg c s p).2.2.rhTimer = s.rhTimer ∧
    (gps_chg c s p).2.2.hostpc = s.hostpc ∧
    (gps_chg c s p).2.2.portReg.length = s.portReg.length := by
  simp only [gps_chg]
  split_ifs <;> simp [writePort]

theorem wrReg_clearM_power_testBit (x i : Nat) (hi : i < 32) (h12 : i ≠ 12) :
    (wrReg x (clearM x (PORT_RWC_BITS ||| PORT_POWER))).testBit i = x.testBit i := by
  rw [testBit_wrReg _ _ _ hi]
  by_cases hA1 : i = 1 ∨ i = 3 ∨ i = 5
  · rw [if_pos hA1, testBit_clearM, testBit_RWC_POWER]
    have hm : (decide (i = 1) || decide (i = 3) || decide (i = 5) ||
        decide (i = 12)) = true := by
      rcases hA1 with h | h | h <;> subst h <;> decide
    rw [hm]
    simp [hi]
  · rw [if_neg hA1, testBit_clearM, testBit_RWC_POWER]
    push_neg at hA1
    obtain ⟨n1, n3, n5⟩ := hA1
    simp [n1, n3, n5, h12, hi]

theorem gps_chg_temp_testBit (c : EhciCaps) (s : EhciState) (p i : Nat)
    (hlen : p < s.portReg.length) (hi : i < 32) (h12 : i ≠ 12) :
    (gps_chg c s p).2.1.testBit i = (readPort s p).testBit i := by
  simp only [gps_chg]
  split_ifs <;>
    first
      | rfl
      | (rw [readPort_writePort_self _ _ _ hlen]
         exact wrReg_clearM_power_testBit _ _ hi h12)

theorem testBit_status_const (v i : Nat)
    (hv : v = 0 ∨ v = 65536 ∨ v = 131072 ∨ v = 196608 ∨ v = 524288 ∨
      v = 589824 ∨ v = 655360 ∨ v = 720896)
    (h16 : i ≠ 16) (h17 : i ≠ 17) (h19 : i ≠ 19) : Nat.testBit v i = false := by
  by_cases hbig : 20 ≤ i
  · rcases hv with h | h | h | h | h | h | h | h <;> subst h <;>
      exact Nat.testBit_lt_two_pow (lt_of_lt_of_le (by norm_num)
        (Nat.pow_le_pow_right (by norm_num) hbig))
  · push_neg at hbig
    interval_cases i <;>
      first
        | exact absurd rfl h16
        | exact absurd rfl h17
        | exact absurd rfl h19
        | (rcases hv with h | h | h | h | h | h | h | h <;> subst h <;> decide)

theorem gps_chg_status_testBit (c : EhciCaps) (s : EhciState) (p i : Nat)
    (h16 : i ≠ 16) (h17 : i ≠ 17) (h19 : i ≠ 19) :
    (gps_chg c s p).1.testBit i = false := by
  have e1 : (USB_PORT_STAT_C_CONNECTION <<< 16 : Nat) = 2 ^ 16 := by decide
  have e2 : (USB_PORT_STAT_C_ENABLE <<< 16 : Nat) = 2 ^ 17 := by decide
  have e3 : (USB_PORT_STAT_C_OVERCURRENT <<< 16 : Nat) = 2 ^ 19 := by decide
  simp only [gps_chg]
  split_ifs <;> simp [e1, e2, e3] <;>
    exact testBit_status_const _ _ (by decide) h16 h17 h19

theorem gps_chg_status_19 (c : EhciCaps) (s : EhciState) (p : Nat)
    (h5 : (readPort s p).testBit 5 = true) (hioc : c.ignore_oc = false) :
    (gps_chg c s p).1.testBit 19 = true := by
  simp only [gps_chg]
  split_ifs <;> simp_all <;> decide

theorem readPort_portReg_eq {s1 s2 : EhciState} (h : s1.portReg = s2.portReg)
    (p : Nat) : readPort s1 p = readPort s2 p := by
  simp [readPort, h]

/-- A write of `v` with the power bit clear leaves the power bit clear. -/
theorem wrReg_bit12 (old v : Nat) (hv : v.testBit 12 = false) :
    (wrReg old v).testBit 12 = false := by
  rw [testBit_wrReg _ _ _ (by norm_num), if_neg (by norm_num)]
  exact hv

theorem clearM_bit12 {x : Nat} (m : Nat) (hx : x.testBit 12 = false) :
    (clearM x m).testBit 12 = false := by
  rw [testBit_clearM, hx]
  simp

theorem check_reset_complete_bit12 (c : EhciCaps) (s : EhciState) (p ps : Nat)
    (hlen : p < s.portReg.length) (hps : ps.testBit 12 = false) :
    (check_reset_complete c s p ps).1.testBit 12 = false ∧
    ((check_reset_complete c s p ps).2.portReg = s.portReg ∨
      (check_reset_complete c s p ps).2 =
        writePort s p (clearM (ps ||| PORT_OWNER) PORT_RWC_BITS)) := by
  simp only [check_reset_complete]
  split_ifs
  · exact ⟨hps, Or.inl rfl⟩
  · exact ⟨hps, Or.inl rfl⟩
  · refine ⟨?_, Or.inr rfl⟩
    refine clearM_bit12 _ ?_
    simp only [Nat.testBit_or, hps]
    decide
  · exact ⟨hps, Or.inl rfl⟩

theorem gps_resume_bit12 (env : Env) (s : EhciState) (p temp : Nat)
    (hlen : p < s.portReg.length)
    (ht : temp.testBit 12 = false) (hr : (readPort s p).testBit 12 = false) :
    (gps_resume env s p temp).2.1.testBit 12 = false ∧
    (readPort (gps_resume env s p temp).2.2 p).testBit 12 = false ∧
    (gps_resume env s p temp).2.2.portReg.length = s.portReg.length := by
  simp only [gps_resume]
  split_ifs with h1 h2 h3 h4
  · exact ⟨ht, hr, rfl⟩
  · refine ⟨?_, ?_, ?_⟩
    · simp only [readPort] at hr ⊢
      exact hr
    · simp only [readPort, writePort] at hr ⊢
      rw [getD_set_self _ _ _ hlen, and_mask32_of_lt (wrReg_lt _ _)]
      exact wrReg_bit12 _ _ (clearM_bit12 _ hr)
    · simp [writePort]
  · refine ⟨?_, ?_, ?_⟩
    · simp only [readPort] at hr ⊢
      exact clearM_bit12 _ hr
    · simp only [readPort, writePort] at hr ⊢
      rw [getD_set_self _ _ _ hlen, and_mask32_of_lt (wrReg_lt _ _)]
      exact wrReg_bit12 _ _ (clearM_bit12 _ hr)
    · simp [writePort]
  · exact ⟨ht, hr, rfl⟩
  · exact ⟨ht, hr, rfl⟩

theorem gps_reset_bit12 (c : EhciCaps) (env : Env) (s : EhciState)
    (p status temp : Nat) (hlen : p < s.portReg.length)
    (ht : temp.testBit 12 = false) (hr : (readPort s p).testBit 12 = false) :
    (gps_reset c env s p status temp).2.2.1.testBit 12 = false ∧
    (readPort (gps_reset c env s p status temp).2.2.2 p).testBit 12 = false ∧
    (gps_reset c env s p status temp).2.2.2.portReg.length = s.portReg.length := by
  have hwmain : ∀ s3 : EhciState, s3.portReg = s.portReg →
      (readPort (writePort s3 p (clearM temp (PORT_RWC_BITS ||| PORT_RESET))) p).testBit 12
        = false := by
    intro s3 h3
    simp only [readPort, writePort, h3]
    rw [getD_set_self _ _ _ hlen, and_mask32_of_lt (wrReg_lt _ _)]
    exact wrReg_bit12 _ _ (clearM_bit12 _ ht)
  simp only [gps_reset]
  split_ifs with h1 h2
  · exact ⟨ht, hwmain _ rfl, by simp [writePort]⟩
  · have hps := hwmain { s with reset_done := s.reset_done.set p 0, resuming_ports := clrBit s.resuming_ports p } rfl
    have hwlen : p < (writePort { s with reset_done := s.reset_done.set p 0, resuming_ports := clrBit s.resuming_ports p } p (clearM temp (PORT_RWC_BITS ||| PORT_RESET))).portReg.length := by
      simpa [writePort] using hlen
    have h12 := check_reset_complete_bit12 c
      (writePort { s with reset_done := s.reset_done.set p 0, resuming_ports := clrBit s.resuming_ports p } p (clearM temp (PORT_RWC_BITS ||| PORT_RESET))) p
      (readPort (writePort { s with reset_done := s.reset_done.set p 0, resuming_ports := clrBit s.resuming_ports p } p (clearM temp (PORT_RWC_BITS ||| PORT_RESET))) p)
      hwlen hps
    refine ⟨h12.1, ?_, ?_⟩
    · rcases h12.2 with he | he
      · rw [readPort_portReg_eq he]
        exact hps
      · rw [he, readPort_writePort_self _ _ _ hwlen]
        refine wrReg_bit12 _ _ (clearM_bit12 _ ?_)
        simp only [Nat.testBit_or, hps]
        decide
    · rcases h12.2 with he | he
      · rw [show (check_reset_complete c
          (writePort { s with reset_done := s.reset_done.set p 0, resuming_ports := clrBit s.resuming_ports p } p (clearM temp (PORT_RWC_BITS ||| PORT_RESET))) p
          (readPort (writePort { s with reset_done := s.reset_done.set p 0, resuming_ports := clrBit s.resuming_ports p } p (clearM temp (PORT_RWC_BITS ||| PORT_RESET))) p)).2.portReg.length =
          s.portReg.length from by rw [he]; simp [writePort]]
      · rw [he]
        simp [writePort]
  · exact ⟨ht, hr, rfl⟩

theorem gps_reset_status_testBit (c : EhciCaps) (env : Env) (s : EhciState)
    (p status temp i : Nat) (h20 : i ≠ 20) :
    (gps_reset c env s p status temp).2.1.testBit i = status.testBit i := by
  have e4 : ((USB_PORT_STAT_C_RESET <<< 16 : Nat)).testBit i = false := by
    have e : (USB_PORT_STAT_C_RESET <<< 16 : Nat) = 2 ^ 20 := by decide
    rw [e, Nat.testBit_two_pow]
    simp [Ne.symm h20]
  simp only [gps_reset]
  split_ifs with h1 h2
  · simp [Nat.testBit_or, e4]
  · simp [Nat.testBit_or, e4]
  · rfl

theorem gps_companion_bit12 (c : EhciCaps) (s : EhciState) (p temp : Nat)
    (hlen : p < s.portReg.length)
    (ht : temp.testBit 12 = false) (hr : (readPort s p).testBit 12 = false) :
    (gps_companion c s p temp).1.testBit 12 = false ∧
    (readPort (gps_companion c s p temp).2 p).testBit 12 = false ∧
    (gps_companion c s p temp).2.portReg.length = s.portReg.length := by
  simp only [gps_companion]
  split_ifs <;>
    refine ⟨?_, ?_, ?_⟩ <;>
    first
      | exact ht
      | (simp [writePort]; done)
      | (simp only [readPort] at hr ⊢
         exact hr)
      | (simp only [readPort, writePort] at hr ⊢
         rw [getD_set_self _ _ _ hlen, and_mask32_of_lt (wrReg_lt _ _)]
         refine wrReg_bit12 _ _ ?_
         simp only [Nat.testBit_or, clearM_bit12 _ ht]
         decide)

theorem gps_compose_portReg (c : EhciCaps) (s : EhciState) (p status temp : Nat) :
    (gps_compose c s p status temp).2.portReg = s.portReg := by
  simp only [gps_compose]
  split_ifs <;> rfl

theorem gps_compose_bit19 (c : EhciCaps) (s : EhciState) (p status temp : Nat)
    (hst : status.testBit 19 = true) :
    (gps_compose c s p status temp).1.testBit 19 = true := by
  simp only [gps_compose]
  simp [Nat.testBit_or, hst]

theorem gps_compose_bit8 (c : EhciCaps) (s : EhciState) (p status temp : Nat)
    (hst : status.testBit 8 = false) (ht : temp.testBit 12 = false) :
    (gps_compose c s p status temp).1.testBit 8 = false := by
  simp only [gps_compose]
  simp [Nat.testBit_or, testBit_ite, hst, ht,
    show USB_PORT_STAT_CONNECTION.testBit 8 = false from by decide,
    show USB_PORT_STAT_ENABLE.testBit 8 = false from by decide,
    show USB_PORT_STAT_SUSPEND.testBit 8 = false from by decide,
    show USB_PORT_STAT_OVERCURRENT.testBit 8 = false from by decide,
    show USB_PORT_STAT_RESET.testBit 8 = false from by decide,
    show ((USB_PORT_STAT_C_SUSPEND <<< 16 : Nat)).testBit 8 = false from by decide,
    ehci_port_speed_testBit]

theorem clearM_power_bit12 (x : Nat) :
    (clearM x (PORT_RWC_BITS ||| PORT_POWER)).testBit 12 = false := by
  rw [testBit_clearM, testBit_RWC_POWER]
  simp

/-! ## C4 — over-current change handling in GetPortStatus -/

/-- C4: when GetPortStatus reads an over-current-change bit with
over-current reporting honoured, any status word the call returns
carries the over-current-change bit; if the register additionally
shows an active over-current condition on a controller with per-port
power switching, then any returned word also reports port power off
and the port's power bit has been forcibly cleared in the hardware
register in the final state — whichever later branch (resume, reset,
handover) ran (ehci-hub.c lines 979-995). -/
theorem getPortStatus_overcurrent (c : EhciCaps) (env : Env) (s : EhciState)
    (wIndex : Nat) (hlo : wIndex ≠ 0) (hhi : wIndex ≤ c.nPorts)
    (hlen : wIndex - 1 < s.portReg.length)
    (h5 : (readPort s (wIndex - 1)).testBit 5 = true)
    (hioc : c.ignore_oc = false) :
    (∀ w, (getPortStatus c env s wIndex).2.1 = some w →
      w.testBit 19 = true) ∧
    ((readPort s (wIndex - 1)).testBit 4 = true → c.ppc = true →
      (∀ w, (getPortStatus c env s wIndex).2.1 = some w →
        w.testBit 8 = false) ∧
      (readPort (getPortStatus c env s wIndex).2.2 (wIndex - 1)).testBit 12 =
        false) := by
  have hrange : ¬(wIndex = 0 ∨ c.nPorts < wIndex) := by
    push_neg
    exact ⟨hlo, hhi⟩
  have hst19 : (gps_chg c s (wIndex - 1)).1.testBit 19 = true :=
    gps_chg_status_19 c s (wIndex - 1) h5 hioc
  refine ⟨?_, fun h4 hppc => ?_⟩
  · have hst19b : (gps_reset c env
        (gps_resume env (gps_chg c s (wIndex - 1)).2.2 (wIndex - 1)
          (gps_chg c s (wIndex - 1)).2.1).2.2
        (wIndex - 1) (gps_chg c s (wIndex - 1)).1
        (gps_resume env (gps_chg c s (wIndex - 1)).2.2 (wIndex - 1)
          (gps_chg c s (wIndex - 1)).2.1).2.1).2.1.testBit 19 = true := by
      rw [gps_reset_status_testBit _ _ _ _ _ _ _ (by norm_num)]
      exact hst19
    simp only [getPortStatus]
    rw [if_neg hrange]
    by_cases hc2 : (gps_resume env (gps_chg c s (wIndex - 1)).2.2 (wIndex - 1)
        (gps_chg c s (wIndex - 1)).2.1).1 ≠ 0
    · rw [if_pos hc2]
      intro w hw
      simp at hw
    · rw [if_neg hc2]
      by_cases hc3 : (gps_reset c env
          (gps_resume env (gps_chg c s (wIndex - 1)).2.2 (wIndex - 1)
            (gps_chg c s (wIndex - 1)).2.1).2.2
          (wIndex - 1) (gps_chg c s (wIndex - 1)).1
          (gps_resume env (gps_chg c s (wIndex - 1)).2.2 (wIndex - 1)
            (gps_chg c s (wIndex - 1)).2.1).2.1).1 ≠ 0
      · rw [if_pos hc3]
        intro w hw
        simp at hw
      · rw [if_neg hc3]
        intro w hw
        simp only [Option.some.injEq] at hw
        rw [← hw]
        exact gps_compose_bit19 _ _ _ _ _ hst19b
  · have ch1 : (tst (readPort s (wIndex - 1)) PORT_OCC && !c.ignore_oc) = true := by
      simp [h5, hioc]
    have ch2 : (tst (readPort s (wIndex - 1)) PORT_OC && c.ppc) = true := by
      simp [h4, hppc]
    have hlen1 : wIndex - 1 < (gps_chg c s (wIndex - 1)).2.2.portReg.length := by
      rw [(gps_chg_frame c s (wIndex - 1)).2.2.2.2.2.2]
      exact hlen
    have htemp1 : (gps_chg c s (wIndex - 1)).2.1.testBit 12 = false := by
      simp only [gps_chg, ch1, ch2, if_true]
      simp only [readPort, writePort]
      rw [getD_set_self _ _ _ hlen, and_mask32_of_lt (wrReg_lt _ _)]
      exact wrReg_bit12 _ _ (clearM_power_bit12 _)
    have hreg1 : (readPort (gps_chg c s (wIndex - 1)).2.2 (wIndex - 1)).testBit 12
        = false := by
      rw [gps_chg_readPort]
      exact htemp1
    have hst8 : (gps_chg c s (wIndex - 1)).1.testBit 8 = false :=
      gps_chg_status_testBit c s (wIndex - 1) 8 (by norm_num) (by norm_num)
        (by norm_num)
    obtain ⟨ht2, hr2, hl2⟩ := gps_resume_bit12 env (gps_chg c s (wIndex - 1)).2.2
      (wIndex - 1) (gps_chg c s (wIndex - 1)).2.1 hlen1 htemp1 hreg1
    have hlen2 : wIndex - 1 < (gps_resume env (gps_chg c s (wIndex - 1)).2.2
        (wIndex - 1) (gps_chg c s (wIndex - 1)).2.1).2.2.portReg.length := by
      rw [hl2]
      exact hlen1
    obtain ⟨ht3, hr3, hl3⟩ := gps_reset_bit12 c env
      (gps_resume env (gps_chg c s (wIndex - 1)).2.2 (wIndex - 1)
        (gps_chg c s (wIndex - 1)).2.1).2.2
      (wIndex - 1) (gps_chg c s (wIndex - 1)).1
      (gps_resume env (gps_chg c s (wIndex - 1)).2.2 (wIndex - 1)
        (gps_chg c s (wIndex - 1)).2.1).2.1 hlen2 ht2 hr2
    have hst8b : (gps_reset c env
        (gps_resume env (gps_chg c s (wIndex - 1)).2.2 (wIndex - 1)
          (gps_chg c s (wIndex - 1)).2.1).2.2
        (wIndex - 1) (gps_chg c s (wIndex - 1)).1
        (gps_resume env (gps_chg c s (wIndex - 1)).2.2 (wIndex - 1)
          (gps_chg c s (wIndex - 1)).2.1).2.1).2.1.testBit 8 = false := by
      rw [gps_reset_status_testBit _ _ _ _ _ _ _ (by norm_num)]
      exact hst8
    have hlen3 : wIndex - 1 < (gps_reset c env
        (gps_resume env (gps_chg c s (wIndex - 1)).2.2 (wIndex - 1)
          (gps_chg c s (wIndex - 1)).2.1).2.2
        (wIndex - 1) (gps_chg c s (wIndex - 1)).1
        (gps_resume env (gps_chg c s (wIndex - 1)).2.2 (wIndex - 1)
          (gps_chg c s (wIndex - 1)).2.1).2.1).2.2.2.portReg.length := by
      rw [hl3]
      exact hlen2
    obtain ⟨ht4, hr4, hl4⟩ := gps_companion_bit12 c
      (gps_reset c env
        (gps_resume env (gps_chg c s (wIndex - 1)).2.2 (wIndex - 1)
          (gps_chg c s (wIndex - 1)).2.1).2.2
        (wIndex - 1) (gps_chg c s (wIndex - 1)).1
        (gps_resume env (gps_chg c s (wIndex - 1)).2.2 (wIndex - 1)
          (gps_chg c s (wIndex - 1)).2.1).2.1).2.2.2
      (wIndex - 1)
      (gps_reset c env
        (gps_resume env (gps_chg c s (wIndex - 1)).2.2 (wIndex - 1)
          (gps_chg c s (wIndex - 1)).2.1).2.2
        (wIndex - 1) (gps_chg c s (wIndex - 1)).1
        (gps_resume env (gps_chg c s (wIndex - 1)).2.2 (wIndex - 1)
          (gps_chg c s (wIndex - 1)).2.1).2.1).2.2.1 hlen3 ht3 hr3
    simp only [getPortStatus]
    rw [if_neg hrange]
    by_cases hc2 : (gps_resume env (gps_chg c s (wIndex - 1)).2.2 (wIndex - 1)
        (gps_chg c s (wIndex - 1)).2.1).1 ≠ 0
    · rw [if_pos hc2]
      refine ⟨?_, hr2⟩
      intro w hw
      simp at hw
    · rw [if_neg hc2]
      by_cases hc3 : (gps_reset c env
          (gps_resume env (gps_chg c s (wIndex - 1)).2.2 (wIndex - 1)
            (gps_chg c s (wIndex - 1)).2.1).2.2
          (wIndex - 1) (gps_chg c s (wIndex - 1)).1
          (gps_resume env (gps_chg c s (wIndex - 1)).2.2 (wIndex - 1)
            (gps_chg c s (wIndex - 1)).2.1).2.1).1 ≠ 0
      · rw [if_pos hc3]
        refine ⟨?_, hr3⟩
        intro w hw
        simp at hw
      · rw [if_neg hc3]
        refine ⟨?_, ?_⟩
        · intro w hw
          simp only [Option.some.injEq] at hw
          rw [← hw]
          exact gps_compose_bit8 _ _ _ _ _ hst8b ht4
        · rw [readPort_portReg_eq (gps_compose_portReg _ _ _ _ _)]
          exact hr4

/-- C4 witness: a powered connected port with latched and active
over-current on a power-switching controller. -/
theorem getPortStatus_overcurrent_wit :
    ((getPortStatus capsA envA { stA with portReg := [4145] } 1).2.1 = some 525321 →
      Nat.testBit 525321 19 = true) ∧
    ((getPortStatus capsA envA { stA with portReg := [4145] } 1).2.1 = some 525321 →
      Nat.testBit 525321 8 = false) ∧
    (readPort (getPortStatus capsA envA { stA with portReg := [4145] } 1).2.2 0).testBit 12
      = false := by
  have h := getPortStatus_overcurrent capsA envA { stA with portReg := [4145] } 1
    (by decide) (by decide) (by decide) (by decide) (by decide)
  have hb := h.2 (by decide) (by decide)
  exact ⟨fun hw => h.1 525321 hw, fun hw => hb.1 525321 hw, hb.2⟩

theorem gps_compose_bit2 (c : EhciCaps) (s : EhciState) (p status temp : Nat)
    (hst : status.testBit 2 = false) :
    (gps_compose c s p status temp).1.testBit 2 = (temp.testBit 7 || temp.testBit 6) := by
  simp only [gps_compose]
  simp [Nat.testBit_or, testBit_ite, hst,
    show USB_PORT_STAT_CONNECTION.testBit 2 = false from by decide,
    show USB_PORT_STAT_ENABLE.testBit 2 = false from by decide,
    show USB_PORT_STAT_SUSPEND.testBit 2 = true from by decide,
    show USB_PORT_STAT_OVERCURRENT.testBit 2 = false from by decide,
    show USB_PORT_STAT_RESET.testBit 2 = false from by decide,
    show USB_PORT_STAT_POWER.testBit 2 = false from by decide,
    show ((USB_PORT_STAT_C_SUSPEND <<< 16 : Nat)).testBit 2 = false from by decide,
    ehci_port_speed_testBit]

/-! ## C2 — resume handling in GetPortStatus -/

/-- Auxiliary, remote-wakeup arming case of the resume branch (lines
1000-1008): no deadline recorded yet, so a 20-unit deadline is armed,
the root-hub timer is scheduled for a re-check, and the returned word
still reports the port suspended. -/
theorem getPortStatus_resume_arm (c : EhciCaps) (env : Env) (s : EhciState)
    (wIndex : Nat) (hlo : wIndex ≠ 0) (hhi : wIndex ≤ c.nPorts)
    (hlen : wIndex - 1 < s.portReg.length)
    (hrd : wIndex - 1 < s.reset_done.length)
    (h6 : (readPort s (wIndex - 1)).testBit 6 = true)
    (h8 : (readPort s (wIndex - 1)).testBit 8 = false)
    (hcomp : c.companion_ports.testBit (wIndex - 1) = false)
    (hd : s.reset_done.getD (wIndex - 1) 0 = 0) :
    (getPortStatus c env s wIndex).1 = 0 ∧
    (∃ w, (getPortStatus c env s wIndex).2.1 = some w ∧ w.testBit 2 = true) ∧
    (getPortStatus c env s wIndex).2.2.reset_done.getD (wIndex - 1) 0 =
      env.jiffies + 20 ∧
    (getPortStatus c env s wIndex).2.2.rhTimer = some (env.jiffies + 20) := by
  have hrange : ¬(wIndex = 0 ∨ c.nPorts < wIndex) := by
    push_neg
    exact ⟨hlo, hhi⟩
  obtain ⟨hfr, hfresu, hfsusp, hfcs, hft, hfh, hflen⟩ := gps_chg_frame c s (wIndex - 1)
  have ht6 : (gps_chg c s (wIndex - 1)).2.1.testBit 6 = true := by
    rw [gps_chg_temp_testBit _ _ _ _ hlen (by norm_num) (by norm_num)]
    exact h6
  have ht8 : (gps_chg c s (wIndex - 1)).2.1.testBit 8 = false := by
    rw [gps_chg_temp_testBit _ _ _ _ hlen (by norm_num) (by norm_num)]
    exact h8
  have hst2 : (gps_chg c s (wIndex - 1)).1.testBit 2 = false :=
    gps_chg_status_testBit c s _ 2 (by norm_num) (by norm_num) (by norm_num)
  have ct : tst (gps_chg c s (wIndex - 1)).2.1 PORT_RESUME = true := by
    rw [tst_PORT_RESUME]
    exact ht6
  have cd : (gps_chg c s (wIndex - 1)).2.2.reset_done.getD (wIndex - 1) 0 = 0 := by
    rw [hfr]
    exact hd
  have e2 : gps_resume env (gps_chg c s (wIndex - 1)).2.2 (wIndex - 1)
      (gps_chg c s (wIndex - 1)).2.1 =
      (0, (gps_chg c s (wIndex - 1)).2.1,
        { (gps_chg c s (wIndex - 1)).2.2 with
          reset_done := (gps_chg c s (wIndex - 1)).2.2.reset_done.set (wIndex - 1)
            (env.jiffies + 20),
          rhTimer := some (env.jiffies + 20) }) := by
    simp only [gps_resume, ct, cd, eq_self_iff_true, if_true]
  have e3 : gps_reset c env
      ({ (gps_chg c s (wIndex - 1)).2.2 with
          reset_done := (gps_chg c s (wIndex - 1)).2.2.reset_done.set (wIndex - 1)
            (env.jiffies + 20),
          rhTimer := some (env.jiffies + 20) } : EhciState)
      (wIndex - 1) (gps_chg c s (wIndex - 1)).1 (gps_chg c s (wIndex - 1)).2.1 =
      (0, (gps_chg c s (wIndex - 1)).1, (gps_chg c s (wIndex - 1)).2.1,
        { (gps_chg c s (wIndex - 1)).2.2 with
          reset_done := (gps_chg c s (wIndex - 1)).2.2.reset_done.set (wIndex - 1)
            (env.jiffies + 20),
          rhTimer := some (env.jiffies + 20) }) := by
    simp only [gps_reset, tst_PORT_RESET, ht8, Bool.false_and, Bool.false_eq_true,
      if_false]
  have e4 : gps_companion c
      ({ (gps_chg c s (wIndex - 1)).2.2 with
          reset_done := (gps_chg c s (wIndex - 1)).2.2.reset_done.set (wIndex - 1)
            (env.jiffies + 20),
          rhTimer := some (env.jiffies + 20) } : EhciState)
      (wIndex - 1) (gps_chg c s (wIndex - 1)).2.1 =
      ((gps_chg c s (wIndex - 1)).2.1,
        { (gps_chg c s (wIndex - 1)).2.2 with
          reset_done := (gps_chg c s (wIndex - 1)).2.2.reset_done.set (wIndex - 1)
            (env.jiffies + 20),
          rhTimer := some (env.jiffies + 20) }) := by
    simp only [gps_companion, tst_resume_reset, ht6, Bool.true_or, Bool.not_true,
      Bool.false_eq_true, if_false, tst_PORT_CONNECT, hcomp, Bool.and_false]
  have ccond : tst (gps_chg c s (wIndex - 1)).2.1
      (PORT_SUSPEND ||| PORT_RESUME) = true := by
    rw [tst_susp_resume, ht6]
    simp
  have ecompS : (gps_compose c
      ({ (gps_chg c s (wIndex - 1)).2.2 with
          reset_done := (gps_chg c s (wIndex - 1)).2.2.reset_done.set (wIndex - 1)
            (env.jiffies + 20),
          rhTimer := some (env.jiffies + 20) } : EhciState)
      (wIndex - 1) (gps_chg c s (wIndex - 1)).1 (gps_chg c s (wIndex - 1)).2.1).2 =
      ({ (gps_chg c s (wIndex - 1)).2.2 with
          reset_done := (gps_chg c s (wIndex - 1)).2.2.reset_done.set (wIndex - 1)
            (env.jiffies + 20),
          rhTimer := some (env.jiffies + 20) } : EhciState) := by
    simp only [gps_compose, ccond, if_true]
  have wbit2 : (gps_compose c
      ({ (gps_chg c s (wIndex - 1)).2.2 with
          reset_done := (gps_chg c s (wIndex - 1)).2.2.reset_done.set (wIndex - 1)
            (env.jiffies + 20),
          rhTimer := some (env.jiffies + 20) } : EhciState)
      (wIndex - 1) (gps_chg c s (wIndex - 1)).1 (gps_chg c s (wIndex - 1)).2.1).1.testBit 2
      = true := by
    rw [gps_compose_bit2 _ _ _ _ _ hst2, ht6]
    simp
  simp only [getPortStatus]
  rw [if_neg hrange, e2]
  dsimp only
  rw [if_neg (by decide : ¬((0 : Int) ≠ 0)), e3]
  dsimp only
  rw [if_neg (by decide : ¬((0 : Int) ≠ 0)), e4]
  dsimp only
  refine ⟨rfl, ⟨_, rfl, wbit2⟩, ?_, ?_⟩
  · rw [ecompS]
    dsimp only
    rw [hfr]
    exact getD_set_self _ _ _ hrd
  · rw [ecompS]

theorem gps_reset_skip (c : EhciCaps) (env : Env) (s2 : EhciState)
    (p status temp : Nat) (h8t : temp.testBit 8 = false) :
    gps_reset c env s2 p status temp = (0, status, temp, s2) := by
  simp only [gps_reset, tst_PORT_RESET, h8t, Bool.false_and, Bool.false_eq_true,
    if_false]

theorem gps_companion_noowner (c : EhciCaps) (s2 : EhciState) (p temp : Nat)
    (hcomp : c.companion_ports.testBit p = false) :
    (gps_companion c s2 p temp).1 = temp ∧
    (gps_companion c s2 p temp).2.suspended_ports = s2.suspended_ports ∧
    (gps_companion c s2 p temp).2.port_c_suspend = s2.port_c_suspend ∧
    ((gps_companion c s2 p temp).2.resuming_ports = s2.resuming_ports ∨
      (gps_companion c s2 p temp).2.resuming_ports = clrBit s2.resuming_ports p) ∧
    (gps_companion c s2 p temp).2.portReg = s2.portReg := by
  simp only [gps_companion, tst_PORT_CONNECT, hcomp, Bool.and_false,
    Bool.false_eq_true, if_false]
  split_ifs <;> simp

theorem gps_compose_nosusp (c : EhciCaps) (s2 : EhciState) (p status temp : Nat)
    (hsus : s2.suspended_ports.testBit p = false) :
    (gps_compose c s2 p status temp).2 = s2 := by
  simp only [gps_compose]
  split_ifs <;> simp_all

/-- Auxiliary, completion case of the resume branch (lines 1010-1032):
with the recorded deadline elapsed, the tracker drops the suspended
flag, latches the suspend-change flag, resume signaling is stopped in
hardware, the resuming flag is cleared, and the 2 ms handshake runs —
its failure surfaces as the (stall) error return, with the state
mutations kept. -/
theorem getPortStatus_resume_complete (c : EhciCaps) (env : Env) (s : EhciState)
    (wIndex : Nat) (hlo : wIndex ≠ 0) (hhi : wIndex ≤ c.nPorts)
    (hlen : wIndex - 1 < s.portReg.length)
    (h6 : (readPort s (wIndex - 1)).testBit 6 = true)
    (h8 : (readPort s (wIndex - 1)).testBit 8 = false)
    (hcomp : c.companion_ports.testBit (wIndex - 1) = false)
    (hdn : s.reset_done.getD (wIndex - 1) 0 ≠ 0)
    (hdl : s.reset_done.getD (wIndex - 1) 0 ≤ env.jiffies) :
    (getPortStatus c env s wIndex).1 = (if env.hsResumeOk then 0 else -EPIPE) ∧
    (getPortStatus c env s wIndex).2.2.suspended_ports.testBit (wIndex - 1) = false ∧
    (getPortStatus c env s wIndex).2.2.resuming_ports.testBit (wIndex - 1) = false ∧
    (getPortStatus c env s wIndex).2.2.port_c_suspend.testBit (wIndex - 1) = true ∧
    (readPort (getPortStatus c env s wIndex).2.2 (wIndex - 1)).testBit 6 = false := by
  have hrange : ¬(wIndex = 0 ∨ c.nPorts < wIndex) := by
    push_neg
    exact ⟨hlo, hhi⟩
  simp only [getPortStatus]
  rw [if_neg hrange]
  obtain ⟨hfr, hfresu, hfsusp, hfcs, hft, hfh, hflen⟩ := gps_chg_frame c s (wIndex - 1)
  have hread1 := gps_chg_readPort c s (wIndex - 1)
  set st1 := (gps_chg c s (wIndex - 1)).1 with hst1def
  set t1 := (gps_chg c s (wIndex - 1)).2.1 with ht1def
  set s1 := (gps_chg c s (wIndex - 1)).2.2 with hs1def
  have hlen1 : wIndex - 1 < s1.portReg.length := by
    rw [hflen]
    exact hlen
  have ht6 : t1.testBit 6 = true := by
    rw [ht1def, gps_chg_temp_testBit _ _ _ _ hlen (by norm_num) (by norm_num)]
    exact h6
  have ht8 : t1.testBit 8 = false := by
    rw [ht1def, gps_chg_temp_testBit _ _ _ _ hlen (by norm_num) (by norm_num)]
    exact h8
  have ct : tst t1 PORT_RESUME = true := by
    rw [tst_PORT_RESUME]
    exact ht6
  have cd0 : ¬(s1.reset_done.getD (wIndex - 1) 0 = 0) := by
    rw [hfr]
    exact hdn
  have cdl : s1.reset_done.getD (wIndex - 1) 0 ≤ env.jiffies := by
    rw [hfr]
    exact hdl
  set sA : EhciState := { s1 with
    suspended_ports := clrBit s1.suspended_ports (wIndex - 1),
    port_c_suspend := setBit s1.port_c_suspend (wIndex - 1),
    reset_done := s1.reset_done.set (wIndex - 1) 0 } with hsA
  have hAeq : sA.portReg = s1.portReg := by rw [hsA]
  have hreadA : readPort sA (wIndex - 1) = t1 := by
    rw [readPort_portReg_eq hAeq]
    exact hread1
  set sB : EhciState :=
    writePort sA (wIndex - 1) (clearM t1 (PORT_RWC_BITS ||| PORT_RESUME)) with hsB
  set sC : EhciState :=
    { sB with resuming_ports := clrBit sB.resuming_ports (wIndex - 1) } with hsC
  have hlenA : wIndex - 1 < sA.portReg.length := by
    rw [hAeq]
    exact hlen1
  have f1 : sC.suspended_ports.testBit (wIndex - 1) = false := by
    rw [hsC, hsB, hsA]
    simp [writePort, testBit_clrBit]
  have f2 : sC.resuming_ports.testBit (wIndex - 1) = false := by
    rw [hsC]
    simp [testBit_clrBit]
  have f3 : sC.port_c_suspend.testBit (wIndex - 1) = true := by
    rw [hsC, hsB, hsA]
    simp [writePort, testBit_setBit]
  have f4 : (readPort sC (wIndex - 1)).testBit 6 = false := by
    have hCB : sC.portReg = sB.portReg := by rw [hsC]
    rw [readPort_portReg_eq hCB, hsB, readPort_writePort_self _ _ _ hlenA,
      testBit_wrReg _ _ _ (by norm_num), if_neg (by norm_num), testBit_clearM,
      testBit_RWC_RESUME]
    simp
  have htB8 : (clearM t1 (PORT_SUSPEND ||| PORT_RESUME ||| (3 <<< 10))).testBit 8
      = false := by
    rw [testBit_clearM, testBit_susp_resume_ls, ht8]
    simp
  rcases hs : env.hsResumeOk
  · have e2 : gps_resume env s1 (wIndex - 1) t1 = (-ETIMEDOUT, t1, sC) := by
      simp only [gps_resume, ct, if_true]
      rw [if_neg cd0, if_pos cdl]
      rw [← hsA, hreadA, ← hsB, ← hsC, hs]
      simp only [handshake, Bool.false_eq_true, if_false]
      rw [if_pos (by decide : (-ETIMEDOUT : Int) ≠ 0)]
    rw [e2]
    have hne : (-ETIMEDOUT : Int) ≠ 0 := by decide
    rw [if_pos hne]
    exact ⟨rfl, f1, f2, f3, f4⟩
  · have e2 : gps_resume env s1 (wIndex - 1) t1 =
        ((0 : Int), clearM t1 (PORT_SUSPEND ||| PORT_RESUME ||| (3 <<< 10)), sC) := by
      simp only [gps_resume, ct, if_true]
      rw [if_neg cd0, if_pos cdl]
      rw [← hsA, hreadA, ← hsB, ← hsC, hs]
      simp only [handshake, if_true]
      rw [if_neg (by decide : ¬((0 : Int) ≠ 0))]
    rw [e2]
    dsimp only
    rw [if_neg (by decide : ¬((0 : Int) ≠ 0)),
      gps_reset_skip c env sC (wIndex - 1) st1 _ htB8]
    dsimp only
    rw [if_neg (by decide : ¬((0 : Int) ≠ 0))]
    obtain ⟨g1, g2, g3, g4, g5⟩ := gps_companion_noowner c sC (wIndex - 1)
      (clearM t1 (PORT_SUSPEND ||| PORT_RESUME ||| (3 <<< 10))) hcomp
    have hfinal : (gps_compose c
        (gps_companion c sC (wIndex - 1)
          (clearM t1 (PORT_SUSPEND ||| PORT_RESUME ||| (3 <<< 10)))).2
        (wIndex - 1) st1
        (gps_companion c sC (wIndex - 1)
          (clearM t1 (PORT_SUSPEND ||| PORT_RESUME ||| (3 <<< 10)))).1).2 =
        (gps_companion c sC (wIndex - 1)
          (clearM t1 (PORT_SUSPEND ||| PORT_RESUME ||| (3 <<< 10)))).2 := by
      refine gps_compose_nosusp _ _ _ _ _ ?_
      rw [g2]
      exact f1
    dsimp only
    refine ⟨rfl, ?_, ?_, ?_, ?_⟩
    · rw [hfinal, g2]
      exact f1
    · rw [hfinal]
      rcases g4 with g | g
      · rw [g]
        exact f2
      · rw [g]
        simp [testBit_clrBit, f2]
    · rw [hfinal, g3]
      exact f3
    · have hpr : (gps_compose c
          (gps_companion c sC (wIndex - 1)
            (clearM t1 (PORT_SUSPEND ||| PORT_RESUME ||| (3 <<< 10)))).2
          (wIndex - 1) st1
          (gps_companion c sC (wIndex - 1)
            (clearM t1 (PORT_SUSPEND ||| PORT_RESUME ||| (3 <<< 10)))).1).2.portReg =
          sC.portReg := by
        rw [gps_compose_portReg, g5]
      rw [readPort_portReg_eq hpr]
      exact f4

/-- Fixture for the resume branch: one powered, connected, enabled port
with the hardware resume bit (6) set, both tracker flags set, and a
recorded completion deadline of 50 already elapsed at jiffies 100. -/
def stC2 : EhciState where
  portReg := [4165]
  hostpc := [0]
  statusReg := 0
  commandReg := 1
  intrEnable := 0
  command := 0
  resuming_ports := 1
  suspended_ports := 1
  port_c_suspend := 0
  bus_suspended := 0
  owned_ports := 0
  reset_done := [50]
  rh_state := RhState.running
  next_statechange := 0
  rhTimer := none

/-- C2: for every in-range port whose hardware resume bit is set (no
reset in progress, port not owned by a companion), GetPortStatus
(ehci-hub.c lines 997-1033): (i) with no completion deadline recorded,
arms a 20-unit deadline, schedules the root-hub timer for a re-check,
and succeeds with a status word still reporting the port suspended;
(ii) with the recorded deadline elapsed, clears the suspended and
resuming tracker flags, latches the suspend-change flag, clears the
resume bit in the hardware register, and runs the resume-completion
handshake, whose failure is surfaced as the stall error return of
GetPortStatus rather than ignored. -/
theorem getPortStatus_resume_claim (c : EhciCaps) (env : Env) (s : EhciState)
    (wIndex : Nat) (hlo : wIndex ≠ 0) (hhi : wIndex ≤ c.nPorts)
    (hlen : wIndex - 1 < s.portReg.length)
    (hrd : wIndex - 1 < s.reset_done.length)
    (h6 : (readPort s (wIndex - 1)).testBit 6 = true)
    (h8 : (readPort s (wIndex - 1)).testBit 8 = false)
    (hcomp : c.companion_ports.testBit (wIndex - 1) = false) :
    (s.reset_done.getD (wIndex - 1) 0 = 0 →
      (getPortStatus c env s wIndex).1 = 0 ∧
      (∃ w, (getPortStatus c env s wIndex).2.1 = some w ∧ w.testBit 2 = true) ∧
      (getPortStatus c env s wIndex).2.2.reset_done.getD (wIndex - 1) 0 =
        env.jiffies + 20 ∧
      (getPortStatus c env s wIndex).2.2.rhTimer = some (env.jiffies + 20)) ∧
    (s.reset_done.getD (wIndex - 1) 0 ≠ 0 →
      s.reset_done.getD (wIndex - 1) 0 ≤ env.jiffies →
      (getPortStatus c env s wIndex).1 = (if env.hsResumeOk then 0 else -EPIPE) ∧
      (getPortStatus c env s wIndex).2.2.suspended_ports.testBit (wIndex - 1) = false ∧
      (getPortStatus c env s wIndex).2.2.resuming_ports.testBit (wIndex - 1) = false ∧
      (getPortStatus c env s wIndex).2.2.port_c_suspend.testBit (wIndex - 1) = true ∧
      (readPort (getPortStatus c env s wIndex).2.2 (wIndex - 1)).testBit 6 = false) := by
  constructor
  · intro hd
    exact getPortStatus_resume_arm c env s wIndex hlo hhi hlen hrd h6 h8 hcomp hd
  · intro hdn hdl
    exact getPortStatus_resume_complete c env s wIndex hlo hhi hlen h6 h8 hcomp hdn hdl

/-- Witness for C2 at a concrete fixture. -/
theorem getPortStatus_resume_claim_wit :
    (readPort stC2 0).testBit 6 = true ∧
    ((stC2.reset_done.getD 0 0 = 0 →
      (getPortStatus capsA envA stC2 1).1 = 0 ∧
      (∃ w, (getPortStatus capsA envA stC2 1).2.1 = some w ∧ w.testBit 2 = true) ∧
      (getPortStatus capsA envA stC2 1).2.2.reset_done.getD 0 0 =
        envA.jiffies + 20 ∧
      (getPortStatus capsA envA stC2 1).2.2.rhTimer = some (envA.jiffies + 20)) ∧
    (stC2.reset_done.getD 0 0 ≠ 0 →
      stC2.reset_done.getD 0 0 ≤ envA.jiffies →
      (getPortStatus capsA envA stC2 1).1 = (if envA.hsResumeOk then 0 else -EPIPE) ∧
      (getPortStatus capsA envA stC2 1).2.2.suspended_ports.testBit 0 = false ∧
      (getPortStatus capsA envA stC2 1).2.2.resuming_ports.testBit 0 = false ∧
      (getPortStatus capsA envA stC2 1).2.2.port_c_suspend.testBit 0 = true ∧
      (readPort (getPortStatus capsA envA stC2 1).2.2 0).testBit 6 = false)) :=
  ⟨by decide, getPortStatus_resume_claim capsA envA stC2 1 (by decide) (by decide)
    (by decide) (by decide) (by decide) (by decide) (by decide)⟩

/-! ## C7 — suspend reporting in the composed status word -/

theorem gps_resume_skip (env : Env) (s : EhciState) (p temp : Nat)
    (h6 : temp.testBit 6 = false) :
    gps_resume env s p temp = ((0 : Int), temp, s) := by
  simp only [gps_resume, tst_PORT_RESUME, h6, Bool.false_eq_true, if_false]

theorem gps_compose_leftover (c : EhciCaps) (s2 : EhciState) (p status temp : Nat)
    (h7 : temp.testBit 7 = false) (h6 : temp.testBit 6 = false)
    (hsusp : s2.suspended_ports.testBit p = true)
    (hpe : temp.testBit 2 = true) :
    (gps_compose c s2 p status temp).1.testBit 18 = true ∧
    (gps_compose c s2 p status temp).2.suspended_ports.testBit p = false ∧
    (gps_compose c s2 p status temp).2.resuming_ports.testBit p = false ∧
    (gps_compose c s2 p status temp).2.port_c_suspend.testBit p = true := by
  have hc1 : tst temp (PORT_SUSPEND ||| PORT_RESUME) = false := by
    rw [tst_susp_resume, h7, h6]
    rfl
  have hc3 : tst temp PORT_PE = true := by
    rw [tst_PORT_PE]
    exact hpe
  simp only [gps_compose, hc1, Bool.false_eq_true, if_false, hsusp, if_true, hc3]
  refine ⟨?_, ?_, ?_, ?_⟩
  · simp [Nat.testBit_or, testBit_setBit,
      show ((USB_PORT_STAT_C_SUSPEND <<< 16 : Nat)).testBit 18 = true from by decide]
  · simp [testBit_clrBit]
  · simp [testBit_clrBit]
  · simp [testBit_setBit]

/-- Fixture for the leftover-suspend case: one powered, connected,
enabled port (bits 0, 2, 12) with the hardware suspend and resume bits
clear while the software tracker still marks the port suspended. -/
def stC7 : EhciState where
  portReg := [4101]
  hostpc := [0]
  statusReg := 0
  commandReg := 1
  intrEnable := 0
  command := 0
  resuming_ports := 0
  suspended_ports := 1
  port_c_suspend := 0
  bus_suspended := 0
  owned_ports := 0
  reset_done := [0]
  rh_state := RhState.running
  next_statechange := 0
  rhTimer := none

/-- C7 (counterexample to the claim as stated): with the hardware
suspend and resume bits both clear but the software tracker still
recording the port as suspended, the status word returned by
GetPortStatus does NOT report the suspend bit (bit 2) — lines 1106-1108
gate `USB_PORT_STAT_SUSPEND` solely on the hardware
`PORT_SUSPEND | PORT_RESUME` bits; the leftover case only latches the
suspend-change bit (bit 18). -/
theorem getPortStatus_leftover_cex :
    stC7.suspended_ports.testBit 0 = true ∧
    (readPort stC7 0).testBit 7 = false ∧
    (readPort stC7 0).testBit 6 = false ∧
    ∃ w, (getPortStatus capsA envA stC7 1).2.1 = some w ∧
      w.testBit 2 = false ∧ w.testBit 18 = true := by
  refine ⟨by decide, by decide, by decide, ?_⟩
  exact ⟨263427, by decide, by decide, by decide⟩

/-- C7 (amended): for an in-range port with no resume and no reset in
progress and no companion owner, the suspend bit (bit 2) of the status
word returned by GetPortStatus equals the HARDWARE suspend bit alone;
in the software-leftover case (hardware suspend clear, tracker still
marking the port suspended, port enabled) the word instead carries the
suspend-change bit (bit 18), and the tracker drops the suspended and
resuming flags and latches the suspend-change flag (lines 1095-1108). -/
theorem getPortStatus_suspend_report (c : EhciCaps) (env : Env) (s : EhciState)
    (wIndex : Nat) (hlo : wIndex ≠ 0) (hhi : wIndex ≤ c.nPorts)
    (hlen : wIndex - 1 < s.portReg.length)
    (h6 : (readPort s (wIndex - 1)).testBit 6 = false)
    (h8 : (readPort s (wIndex - 1)).testBit 8 = false)
    (hcomp : c.companion_ports.testBit (wIndex - 1) = false) :
    ∃ w, (getPortStatus c env s wIndex).2.1 = some w ∧
      w.testBit 2 = (readPort s (wIndex - 1)).testBit 7 ∧
      ((readPort s (wIndex - 1)).testBit 7 = false →
        s.suspended_ports.testBit (wIndex - 1) = true →
        (readPort s (wIndex - 1)).testBit 2 = true →
        w.testBit 18 = true ∧
        (getPortStatus c env s wIndex).2.2.suspended_ports.testBit (wIndex - 1) = false ∧
        (getPortStatus c env s wIndex).2.2.resuming_ports.testBit (wIndex - 1) = false ∧
        (getPortStatus c env s wIndex).2.2.port_c_suspend.testBit (wIndex - 1) = true) := by
  have hrange : ¬(wIndex = 0 ∨ c.nPorts < wIndex) := by
    push_neg
    exact ⟨hlo, hhi⟩
  simp only [getPortStatus]
  rw [if_neg hrange]
  obtain ⟨hfr, hfresu, hfsusp, hfcs, hft, hfh, hflen⟩ := gps_chg_frame c s (wIndex - 1)
  set st1 := (gps_chg c s (wIndex - 1)).1 with hst1def
  set t1 := (gps_chg c s (wIndex - 1)).2.1 with ht1def
  set s1 := (gps_chg c s (wIndex - 1)).2.2 with hs1def
  have ht6 : t1.testBit 6 = false := by
    rw [ht1def, gps_chg_temp_testBit _ _ _ _ hlen (by norm_num) (by norm_num)]
    exact h6
  have ht7 : t1.testBit 7 = (readPort s (wIndex - 1)).testBit 7 := by
    rw [ht1def, gps_chg_temp_testBit _ _ _ _ hlen (by norm_num) (by norm_num)]
  have ht8 : t1.testBit 8 = false := by
    rw [ht1def, gps_chg_temp_testBit _ _ _ _ hlen (by norm_num) (by norm_num)]
    exact h8
  have ht2 : t1.testBit 2 = (readPort s (wIndex - 1)).testBit 2 := by
    rw [ht1def, gps_chg_temp_testBit _ _ _ _ hlen (by norm_num) (by norm_num)]
  have hst2 : st1.testBit 2 = false := by
    rw [hst1def]
    exact gps_chg_status_testBit c s (wIndex - 1) 2 (by norm_num) (by norm_num)
      (by norm_num)
  rw [gps_resume_skip env s1 (wIndex - 1) t1 ht6]
  dsimp only
  rw [if_neg (by decide : ¬((0 : Int) ≠ 0)),
    gps_reset_skip c env s1 (wIndex - 1) st1 t1 ht8]
  dsimp only
  rw [if_neg (by decide : ¬((0 : Int) ≠ 0))]
  obtain ⟨g1, g2, g3, g4, g5⟩ := gps_companion_noowner c s1 (wIndex - 1) t1 hcomp
  dsimp only
  rw [g1]
  refine ⟨_, rfl, ?_, ?_⟩
  · rw [gps_compose_bit2 _ _ _ _ _ hst2, ht6, ht7]
    simp
  · intro h7r hsuspS hpeR
    obtain ⟨l1, l2, l3, l4⟩ := gps_compose_leftover c
      (gps_companion c s1 (wIndex - 1) t1).2 (wIndex - 1) st1 t1
      (by rw [ht7]; exact h7r) ht6
      (by rw [g2, hfsusp]; exact hsuspS)
      (by rw [ht2]; exact hpeR)
    exact ⟨l1, l2, l3, l4⟩

/-- Witness for C7 at the leftover-suspend fixture. -/
theorem getPortStatus_suspend_report_wit :
    (readPort stC7 0).testBit 6 = false ∧
    (∃ w, (getPortStatus capsA envA stC7 1).2.1 = some w ∧
      w.testBit 2 = (readPort stC7 0).testBit 7 ∧
      ((readPort stC7 0).testBit 7 = false →
        stC7.suspended_ports.testBit 0 = true →
        (readPort stC7 0).testBit 2 = true →
        w.testBit 18 = true ∧
        (getPortStatus capsA envA stC7 1).2.2.suspended_ports.testBit 0 = false ∧
        (getPortStatus capsA envA stC7 1).2.2.resuming_ports.testBit 0 = false ∧
        (getPortStatus capsA envA stC7 1).2.2.port_c_suspend.testBit 0 = true)) :=
  ⟨by decide, getPortStatus_suspend_report capsA envA stC7 1 (by decide) (by decide)
    (by decide) (by decide) (by decide) (by decide)⟩

/-! ## C9 — hub_status_data -/

theorem hsdLoop_spec (c : EhciCaps) (env : Env) (s : EhciState) (ppcd : Nat)
    (hppcd : c.has_ppcd = false) (n : Nat) :
    ((hsdLoop c env s ppcd n).2.2 = true ↔
      ∃ i, i < n ∧ portChanged c env s i = true) ∧
    ((hsdLoop c env s ppcd n).1.testBit 0 = false) ∧
    (∀ i : Nat, (hsdLoop c env s ppcd n).1.testBit (i + 1) =
      (decide (i < n) && decide (i < 7) && portChanged c env s i)) ∧
    (∀ j : Nat, (hsdLoop c env s ppcd n).2.1.testBit j =
      (decide (j + 7 < n) && portChanged c env s (j + 7))) := by
  induction n with
  | zero =>
    refine ⟨by simp [hsdLoop], by simp [hsdLoop], ?_, ?_⟩
    · intro i
      simp [hsdLoop]
    · intro j
      simp [hsdLoop]
  | succ n ih =>
    obtain ⟨ih1, ih2, ih3, ih4⟩ := ih
    simp only [hsdLoop, hsdStep, hppcd, Bool.false_and, Bool.false_eq_true, if_false]
    by_cases hch : portChanged c env s n = true
    · rw [if_pos hch]
      by_cases h7 : n < 7
      · rw [if_pos h7]
        refine ⟨iff_of_true rfl ⟨n, Nat.lt_succ_self n, hch⟩, ?_, ?_, ?_⟩
        · dsimp only
          rw [testBit_setBit, ih2]
          simp
        · intro i
          dsimp only
          rw [testBit_setBit, ih3 i]
          by_cases hin : i = n
          · subst hin
            simp [hch, h7]
          · have : decide (i < n + 1) = decide (i < n) := by
              simp only [decide_eq_decide]
              omega
            simp [this, Ne.symm hin]
        · intro j
          dsimp only
          rw [ih4 j]
          have : decide (j + 7 < n + 1) = decide (j + 7 < n) := by
            simp only [decide_eq_decide]
            omega
          rw [this]
      · rw [if_neg h7]
        refine ⟨iff_of_true rfl ⟨n, Nat.lt_succ_self n, hch⟩, ?_, ?_, ?_⟩
        · dsimp only
          exact ih2
        · intro i
          dsimp only
          rw [ih3 i]
          by_cases hin : i = n
          · subst hin
            simp [h7]
          · have : decide (i < n + 1) = decide (i < n) := by
              simp only [decide_eq_decide]
              omega
            rw [this]
        · intro j
          dsimp only
          rw [testBit_setBit, ih4 j]
          by_cases hjn : j = n - 7
          · subst hjn
            have h1 : n - 7 + 7 = n := by omega
            simp [h1, hch]
          · have h2 : ¬(n - 7 = j) := Ne.symm hjn
            have h3 : decide (j + 7 < n + 1) = decide (j + 7 < n) := by
              simp only [decide_eq_decide]
              omega
            simp [h2, h3]
    · rw [if_neg hch]
      have hchf : portChanged c env s n = false := by
        revert hch
        cases portChanged c env s n <;> simp
      refine ⟨?_, ih2, ?_, ?_⟩
      · rw [ih1]
        constructor
        · rintro ⟨i, hi, hp⟩
          exact ⟨i, Nat.lt_succ_of_lt hi, hp⟩
        · rintro ⟨i, hi, hp⟩
          rcases Nat.lt_succ_iff_lt_or_eq.mp hi with h | h
          · exact ⟨i, h, hp⟩
          · subst h
            rw [hchf] at hp
            exact absurd hp (by simp)
      · intro i
        rw [ih3 i]
        by_cases hin : i = n
        · subst hin
          simp [hchf]
        · have : decide (i < n + 1) = decide (i < n) := by
            simp only [decide_eq_decide]
            omega
          rw [this]
      · intro j
        rw [ih4 j]
        by_cases hjn : j + 7 = n
        · rw [hjn] at *
          simp [hchf]
        · have : decide (j + 7 < n + 1) = decide (j + 7 < n) := by
            simp only [decide_eq_decide]
            omega
          rw [this]

/-- Fixture for hub_status_data: a port mid-resume (resuming_ports = 1)
whose completion deadline (200) has not yet arrived at jiffies 100, and
no hardware change bits latched. -/
def stC9 : EhciState where
  portReg := [4165]
  hostpc := [0]
  statusReg := 0
  commandReg := 1
  intrEnable := 0
  command := 0
  resuming_ports := 1
  suspended_ports := 1
  port_c_suspend := 0
  bus_suspended := 0
  owned_ports := 0
  reset_done := [200]
  rh_state := RhState.running
  next_statechange := 0
  rhTimer := none

/-- C9 (counterexample to the claim as stated): no port has a pending
change in the claim's sense (no hardware change bit, no tracked
suspend-change flag, no elapsed deadline — the recorded deadline 200
lies in the future at jiffies 100), yet `ehci_hub_status_data` returns
nonzero, because `status` is initialised from `resuming_ports` (lines
594-597) to report an in-flight resume. -/
theorem ehci_hub_status_data_cex :
    (∀ i, i < capsA.nPorts → portChanged capsA envA stC9 i = false) ∧
    (ehci_hub_status_data capsA envA stC9).1 ≠ 0 := by decide

/-- C9 (amended): with the root hub running and no per-port-change-detect
facility, `ehci_hub_status_data` returns nonzero iff a port resume is in
flight (`resuming_ports ≠ 0`) OR some port has a pending change (a
hardware connect/enable/over-current change bit, a tracked
suspend-change flag, or an elapsed reset/resume deadline); the output
bitmap has bit N+1 of the first byte set exactly for each changed port
N < 7, continuing into the second byte (bit N-7) for higher ports, and
bit 0 of the first byte is left zero. -/
theorem ehci_hub_status_data_claim (c : EhciCaps) (env : Env) (s : EhciState)
    (hrun : s.rh_state = RhState.running) (hppcd : c.has_ppcd = false) :
    ((ehci_hub_status_data c env s).1 ≠ 0 ↔
      s.resuming_ports ≠ 0 ∨ ∃ i, i < c.nPorts ∧ portChanged c env s i = true) ∧
    ((ehci_hub_status_data c env s).2.1.testBit 0 = false) ∧
    (∀ i : Nat, i < 7 →
      (ehci_hub_status_data c env s).2.1.testBit (i + 1) =
        (decide (i < c.nPorts) && portChanged c env s i)) ∧
    (∀ j : Nat,
      (ehci_hub_status_data c env s).2.2.1.testBit j =
        (decide (j + 7 < c.nPorts) && portChanged c env s (j + 7))) := by
  have hrn : ¬(s.rh_state ≠ RhState.running) := by simp [hrun]
  obtain ⟨L1, L2, L3, L4⟩ := hsdLoop_spec c env s 0 hppcd c.nPorts
  simp only [ehci_hub_status_data]
  rw [if_neg hrn]
  simp only [hppcd, Bool.false_eq_true, if_false]
  by_cases hcond : s.resuming_ports ≠ 0 ∨ (hsdLoop c env s 0 c.nPorts).2.2 = true
  · rw [if_pos hcond]
    dsimp only
    refine ⟨?_, L2, ?_, L4⟩
    · constructor
      · intro _
        rcases hcond with h | h
        · exact Or.inl h
        · exact Or.inr (L1.mp h)
      · intro _
        split_ifs <;> simp
    · intro i hi7
      rw [L3 i]
      simp [hi7]
  · rw [if_neg hcond]
    dsimp only
    push_neg at hcond
    obtain ⟨h1, h2⟩ := hcond
    refine ⟨?_, L2, ?_, L4⟩
    · constructor
      · intro h
        exact absurd rfl h
      · rintro (h | h)
        · exact absurd h1 (by simp [h])
        · exact absurd (L1.mpr h) h2
    · intro i hi7
      rw [L3 i]
      simp [hi7]

/-- Witness for C9 at the mid-resume fixture. -/
theorem ehci_hub_status_data_claim_wit :
    stC9.rh_state = RhState.running ∧
    (((ehci_hub_status_data capsA envA stC9).1 ≠ 0 ↔
      stC9.resuming_ports ≠ 0 ∨
        ∃ i, i < capsA.nPorts ∧ portChanged capsA envA stC9 i = true) ∧
    ((ehci_hub_status_data capsA envA stC9).2.1.testBit 0 = false) ∧
    (∀ i : Nat, i < 7 →
      (ehci_hub_status_data capsA envA stC9).2.1.testBit (i + 1) =
        (decide (i < capsA.nPorts) && portChanged capsA envA stC9 i)) ∧
    (∀ j : Nat,
      (ehci_hub_status_data capsA envA stC9).2.2.1.testBit j =
        (decide (j + 7 < capsA.nPorts) && portChanged capsA envA stC9 (j + 7)))) :=
  ⟨rfl, ehci_hub_status_data_claim capsA envA stC9 rfl rfl⟩

/-! ## C10 — bus_suspend: owner ports and the suspended-ports bitmap -/

theorem readPort_writePort_frame (s : EhciState) (p v q : Nat) (h : q ≠ p) :
    readPort (writePort s p v) q = readPort s q :=
  readPort_writePort_ne s p v q (Ne.symm h)

theorem testBit_setBit_frame (b i j : Nat) (h : j ≠ i) :
    (setBit b i).testBit j = b.testBit j := by
  rw [testBit_setBit]
  simp [Ne.symm h]

theorem testBit_setBit_self (b i : Nat) : (setBit b i).testBit i = true := by
  rw [testBit_setBit]
  simp

theorem busSuspendPort_bitmaps (c : EhciCaps) (sc : EhciState × Bool) (p : Nat) :
    ((busSuspendPort c sc p).1.owned_ports.testBit p =
      (sc.1.owned_ports.testBit p || (readPort sc.1 p).testBit 13)) ∧
    ((busSuspendPort c sc p).1.bus_suspended.testBit p =
      (sc.1.bus_suspended.testBit p ||
        (!(readPort sc.1 p).testBit 13 &&
          ((readPort sc.1 p).testBit 2 && !(readPort sc.1 p).testBit 7)))) ∧
    (∀ q, q ≠ p →
      readPort (busSuspendPort c sc p).1 q = readPort sc.1 q ∧
      (busSuspendPort c sc p).1.owned_ports.testBit q =
        sc.1.owned_ports.testBit q ∧
      (busSuspendPort c sc p).1.bus_suspended.testBit q =
        sc.1.bus_suspended.testBit q) ∧
    (busSuspendPort c sc p).1.portReg.length = sc.1.portReg.length := by
  have h13 : (clearM (readPort sc.1 p) PORT_RWC_BITS).testBit 13 =
      (readPort sc.1 p).testBit 13 := by
    rw [testBit_clearM, testBit_RWC]
    simp
  have h2 : (clearM (readPort sc.1 p) PORT_RWC_BITS).testBit 2 =
      (readPort sc.1 p).testBit 2 := by
    rw [testBit_clearM, testBit_RWC]
    simp
  have h7 : (clearM (readPort sc.1 p) PORT_RWC_BITS).testBit 7 =
      (readPort sc.1 p).testBit 7 := by
    rw [testBit_clearM, testBit_RWC]
    simp
  simp only [busSuspendPort, tst_PORT_OWNER, tst_PORT_PE, tst_PORT_SUSPEND,
    tst_PORT_CONNECT, h13, h2, h7]
  split_ifs <;>
    refine ⟨?_, ?_, fun q hq => ⟨?_, ?_, ?_⟩, ?_⟩ <;>
      first
        | ((try simp only [Bool.not_eq_true] at *)
           simp [*, writePort, ehci_halt, testBit_setBit_self, List.length_set]
           done)
        | rfl
        | (exact testBit_setBit_frame _ _ _ hq)
        | (rw [readPort_writePort_frame _ _ _ _ hq]
           exact rfl)
        | (dsimp only [writePort, ehci_halt]
           exact testBit_setBit_frame _ _ _ hq)
        | (simp only [readPort, writePort, ehci_halt]
           (try dsimp only)
           rw [getD_set_ne _ _ _ _ (Ne.symm hq)])

theorem busSuspendPort_owner_reg (c : EhciCaps) (sc : EhciState × Bool) (p : Nat)
    (hplen : p < sc.1.portReg.length)
    (h13t : (readPort sc.1 p).testBit 13 = true) :
    (readPort (busSuspendPort c sc p).1 p).testBit 7 =
      (readPort sc.1 p).testBit 7 := by
  have h13 : (clearM (readPort sc.1 p) PORT_RWC_BITS).testBit 13 = true := by
    rw [testBit_clearM, testBit_RWC]
    simp [h13t]
  have h7 : (clearM (readPort sc.1 p) PORT_RWC_BITS).testBit 7 =
      (readPort sc.1 p).testBit 7 := by
    rw [testBit_clearM, testBit_RWC]
    simp
  have hW : ∀ x : Nat, (clearM x PORT_WAKE_BITS).testBit 7 = x.testBit 7 := by
    intro x
    rw [testBit_clearM]
    simp [show PORT_WAKE_BITS.testBit 7 = false from by decide]
  have hO : ∀ x : Nat, (x ||| PORT_WKOC_E ||| PORT_WKDISC_E).testBit 7 =
      x.testBit 7 := by
    intro x
    simp [Nat.testBit_or, show PORT_WKOC_E.testBit 7 = false from by decide,
      show PORT_WKDISC_E.testBit 7 = false from by decide]
  have hC : ∀ x : Nat, (x ||| PORT_WKOC_E ||| PORT_WKCONN_E).testBit 7 =
      x.testBit 7 := by
    intro x
    simp [Nat.testBit_or, show PORT_WKOC_E.testBit 7 = false from by decide,
      show PORT_WKCONN_E.testBit 7 = false from by decide]
  have hM : ∀ x : Nat, (x &&& mask32).testBit 7 = x.testBit 7 := by
    intro x
    simp [Nat.testBit_and, testBit_mask32]
  simp only [busSuspendPort, tst_PORT_OWNER, h13, if_true]
  split_ifs <;>
    first
      | exact rfl
      | (simp only [readPort, writePort]
         (try dsimp only)
         rw [getD_set_self _ _ _ hplen, hM, testBit_wrReg _ _ _ (by norm_num),
           if_neg (by norm_num)]
         first
           | (rw [hO, hW]; exact h7)
           | (rw [hC, hW]; exact h7)
           | (rw [hW]; exact h7))

theorem busSuspendLoop_spec (c : EhciCaps) (n : Nat) :
    ∀ sc : EhciState × Bool, n ≤ sc.1.portReg.length →
    (∀ p, p < n → sc.1.owned_ports.testBit p = false) →
    (∀ p, p < n → sc.1.bus_suspended.testBit p = false) →
    (∀ p, p < n →
      ((busSuspendLoop c sc n).1.owned_ports.testBit p =
        (readPort sc.1 p).testBit 13) ∧
      ((busSuspendLoop c sc n).1.bus_suspended.testBit p =
        (!(readPort sc.1 p).testBit 13 &&
          ((readPort sc.1 p).testBit 2 && !(readPort sc.1 p).testBit 7))) ∧
      ((readPort sc.1 p).testBit 13 = true →
        (readPort (busSuspendLoop c sc n).1 p).testBit 7 =
          (readPort sc.1 p).testBit 7)) ∧
    (∀ p, n ≤ p →
      (busSuspendLoop c sc n).1.owned_ports.testBit p =
        sc.1.owned_ports.testBit p ∧
      (busSuspendLoop c sc n).1.bus_suspended.testBit p =
        sc.1.bus_suspended.testBit p ∧
      readPort (busSuspendLoop c sc n).1 p = readPort sc.1 p) ∧
    (busSuspendLoop c sc n).1.portReg.length = sc.1.portReg.length := by
  induction n with
  | zero =>
    intro sc _ _ _
    refine ⟨?_, ?_, rfl⟩
    · intro p hp
      exact absurd hp (Nat.not_lt_zero p)
    · intro p _
      exact ⟨rfl, rfl, rfl⟩
  | succ n ih =>
    intro sc hlen hown hbus
    obtain ⟨B1, B2, Bfr, Blen⟩ := busSuspendPort_bitmaps c sc n
    have hplen : n < sc.1.portReg.length := by omega
    have hlen' : n ≤ (busSuspendPort c sc n).1.portReg.length := by
      rw [Blen]
      omega
    have hown' : ∀ p, p < n → (busSuspendPort c sc n).1.owned_ports.testBit p =
        false := by
      intro p hp
      rw [(Bfr p (by omega)).2.1]
      exact hown p (by omega)
    have hbus' : ∀ p, p < n → (busSuspendPort c sc n).1.bus_suspended.testBit p =
        false := by
      intro p hp
      rw [(Bfr p (by omega)).2.2]
      exact hbus p (by omega)
    obtain ⟨IH1, IH2, IH3⟩ := ih (busSuspendPort c sc n) hlen' hown' hbus'
    have hstep : busSuspendLoop c sc (n + 1) =
        busSuspendLoop c (busSuspendPort c sc n) n := rfl
    rw [hstep]
    refine ⟨?_, ?_, ?_⟩
    · intro p hp
      rcases Nat.lt_succ_iff_lt_or_eq.mp hp with h | h
      · obtain ⟨frR, frO, frB⟩ := Bfr p (by omega)
        obtain ⟨J1, J2, J3⟩ := IH1 p h
        rw [frR] at J1 J2 J3
        exact ⟨J1, J2, fun h13 => J3 h13⟩
      · subst h
        obtain ⟨K1, K2, K3⟩ := IH2 p (Nat.le_refl p)
        refine ⟨?_, ?_, ?_⟩
        · rw [K1, B1, hown p (Nat.lt_succ_self p)]
          simp
        · rw [K2, B2, hbus p (Nat.lt_succ_self p)]
          simp
        · intro h13
          rw [K3]
          exact busSuspendPort_owner_reg c sc p hplen h13
    · intro p hp
      obtain ⟨K1, K2, K3⟩ := IH2 p (by omega)
      obtain ⟨frR, frO, frB⟩ := Bfr p (by omega)
      exact ⟨K1.trans frO, K2.trans frB, K3.trans frR⟩
    · exact IH3.trans Blen

theorem hostpcLoop_frame (n : Nat) :
    ∀ s : EhciState, (hostpcLoop s n).portReg = s.portReg ∧
      (hostpcLoop s n).owned_ports = s.owned_ports ∧
      (hostpcLoop s n).bus_suspended = s.bus_suspended := by
  induction n with
  | zero =>
    intro s
    exact ⟨rfl, rfl, rfl⟩
  | succ n ih =>
    intro s
    obtain ⟨f1, f2, f3⟩ :=
      ih { s with hostpc := s.hostpc.set n (readHostpc s n ||| HOSTPC_PHCD) }
    exact ⟨f1, f2, f3⟩

/-- C10: on the success path of `ehci_bus_suspend` (lines 241-285), the
rebuilt `owned_ports` bitmap holds exactly the in-range ports whose
hardware OWNER bit was set, the rebuilt `bus_suspended` bitmap holds
exactly the in-range ports that were enabled (PE set) and not already
suspended — owner ports are excluded from it — and an owner port's
hardware suspend bit is never changed by the port writes (its register
only receives wake-bit updates). -/
theorem ehci_bus_suspend_bitmaps (c : EhciCaps) (env : Env) (s : EhciState)
    (hbusy : ¬(c.do_remote_wakeup = true ∧ s.resuming_ports ≠ 0))
    (hlen : c.nPorts ≤ s.portReg.length) :
    (ehci_bus_suspend c env s).1 = 0 ∧
    ∀ p : Nat,
      ((ehci_bus_suspend c env s).2.owned_ports.testBit p =
        (decide (p < c.nPorts) && (readPort s p).testBit 13)) ∧
      ((ehci_bus_suspend c env s).2.bus_suspended.testBit p =
        (decide (p < c.nPorts) && (!(readPort s p).testBit 13 &&
          ((readPort s p).testBit 2 && !(readPort s p).testBit 7)))) ∧
      ((readPort s p).testBit 13 = true → p < c.nPorts →
        (readPort (ehci_bus_suspend c env s).2 p).testBit 7 =
          (readPort s p).testBit 7) := by
  obtain ⟨L1, L2, L3⟩ := busSuspendLoop_spec c c.nPorts
    ({ { s with command := s.commandReg } with
        bus_suspended := 0, owned_ports := 0 }, false)
    hlen (fun p _ => Nat.zero_testBit p) (fun p _ => Nat.zero_testBit p)
  refine ⟨?_, fun p => ⟨?_, ?_, ?_⟩⟩
  · simp only [ehci_bus_suspend]
    rw [if_neg hbusy]
  · simp only [ehci_bus_suspend]
    rw [if_neg hbusy]
    dsimp only
    by_cases hp : p < c.nPorts
    · simp only [show decide (p < c.nPorts) = true from by simp [hp], Bool.true_and]
      split_ifs <;>
        ((try dsimp only [ehci_halt])
         (try rw [(hostpcLoop_frame c.nPorts _).2.1])
         exact (L1 p hp).1)
    · simp only [show decide (p < c.nPorts) = false from by simp [hp],
        Bool.false_and]
      split_ifs <;>
        ((try dsimp only [ehci_halt])
         (try rw [(hostpcLoop_frame c.nPorts _).2.1])
         exact ((L2 p (Nat.le_of_not_lt hp)).1).trans (Nat.zero_testBit p))
  · simp only [ehci_bus_suspend]
    rw [if_neg hbusy]
    dsimp only
    by_cases hp : p < c.nPorts
    · simp only [show decide (p < c.nPorts) = true from by simp [hp], Bool.true_and]
      split_ifs <;>
        ((try dsimp only [ehci_halt])
         (try rw [(hostpcLoop_frame c.nPorts _).2.2])
         exact (L1 p hp).2.1)
    · simp only [show decide (p < c.nPorts) = false from by simp [hp],
        Bool.false_and]
      split_ifs <;>
        ((try dsimp only [ehci_halt])
         (try rw [(hostpcLoop_frame c.nPorts _).2.2])
         exact ((L2 p (Nat.le_of_not_lt hp)).2.1).trans (Nat.zero_testBit p))
  · intro h13 hp
    have hEq : readPort (ehci_bus_suspend c env s).2 p =
        readPort (busSuspendLoop c
          ({ { s with command := s.commandReg } with
              bus_suspended := 0, owned_ports := 0 }, false) c.nPorts).1 p := by
      refine readPort_portReg_eq ?_ p
      simp only [ehci_bus_suspend]
      rw [if_neg hbusy]
      dsimp only
      split_ifs <;>
        ((try dsimp only [ehci_halt])
         (try rw [(hostpcLoop_frame c.nPorts _).1])
         (try exact rfl))
    rw [hEq]
    exact (L1 p hp).2.2 h13

/-- Two-port capabilities for the bus-suspend witness, with remote
wakeup enabled so the wake-bit writes are exercised. -/
def capsC10 : EhciCaps :=
  { capsA with nPorts := 2, do_remote_wakeup := true }

/-- Two-port fixture: port 0 companion-owned (OWNER bit 13 set, plus
CONNECT and PE), port 1 connected and enabled, neither suspended. -/
def stC10 : EhciState where
  portReg := [8197, 5]
  hostpc := [0, 0]
  statusReg := 0
  commandReg := 1
  intrEnable := 0
  command := 0
  resuming_ports := 0
  suspended_ports := 0
  port_c_suspend := 0
  bus_suspended := 0
  owned_ports := 0
  reset_done := [0, 0]
  rh_state := RhState.running
  next_statechange := 0
  rhTimer := none

/-- Witness for C10 at the two-port fixture. -/
theorem ehci_bus_suspend_bitmaps_wit :
    ¬(capsC10.do_remote_wakeup = true ∧ stC10.resuming_ports ≠ 0) ∧
    ((ehci_bus_suspend capsC10 envA stC10).1 = 0 ∧
    ∀ p : Nat,
      ((ehci_bus_suspend capsC10 envA stC10).2.owned_ports.testBit p =
        (decide (p < capsC10.nPorts) && (readPort stC10 p).testBit 13)) ∧
      ((ehci_bus_suspend capsC10 envA stC10).2.bus_suspended.testBit p =
        (decide (p < capsC10.nPorts) && (!(readPort stC10 p).testBit 13 &&
          ((readPort stC10 p).testBit 2 && !(readPort stC10 p).testBit 7)))) ∧
      ((readPort stC10 p).testBit 13 = true → p < capsC10.nPorts →
        (readPort (ehci_bus_suspend capsC10 envA stC10).2 p).testBit 7 =
          (readPort stC10 p).testBit 7)) :=
  ⟨by decide, ehci_bus_suspend_bitmaps capsC10 envA stC10 (by decide) (by decide)⟩
